import Mathlib

/-!
Verification of the Snake simulation core in `src/components/SnakeGame.tsx`.

The embedding models the TypeScript source directly:

* `Point`, `Snake`, `GameState` mirror the interfaces of the source.
* `step` mirrors the `step` function: the per-snake move phase (agent move
  acceptance, head advancement, wall/self-collision death, food resolution)
  followed by the cross-snake collision pass.
* JavaScript `Math.random()` draws are modelled by an oracle `rand : Nat → Nat`;
  the k-th food placement uses index `rand k % available.length`, so every
  available cell is reachable and the uniform draw corresponds to a uniform
  index.
* The agent roster is modelled by the vector of headings the agents returned
  this tick (`moves : Nat → Direction`), since `step` consumes exactly one
  heading per alive snake.
* A thrown JavaScript `Error` (food placement with no free cell) is modelled by
  `Option`: `none` means the exception propagates out of `step`.

One deliberate piece of heap modelling: in the source, `const newSnake =
{ ...snake }` is a shallow copy, so `newSnake.body` aliases the previous
state's body array and `unshift`/`pop` mutate it in place.  Consequently
`getNextFoodPosition(state.snakes)` sees already-moved bodies for snakes with
a smaller index, and the previous `GameState` is mutated.  The embedding
reproduces this: the move phase threads the current (partially updated) snake
list into food placement, and `stepWithOld` additionally returns what the
previous state's objects look like after the call.
-/

set_option maxRecDepth 16000

namespace SnakeSim

/-- Board side length, `BOARD_SIZE` in the source. -/
def BOARD_SIZE : Nat := 20

/-- The four headings, `type Direction` in the source. -/
inductive Direction where
  | up
  | down
  | left
  | right
deriving DecidableEq, Repr

/-- Integer grid coordinates, `interface Point` in the source. -/
structure Point where
  x : Int
  y : Int
deriving DecidableEq, Repr

/-- Mirrors `interface Snake`: body cells head first, current heading, alive flag. -/
structure Snake where
  body : List Point
  direction : Direction
  alive : Bool
deriving DecidableEq, Repr

/-- Mirrors `interface GameState`: all snakes, current food points, step counter. -/
structure GameState where
  snakes : List Snake
  foods : List Point
  steps : Nat
deriving DecidableEq, Repr

/-- The `opposites` lookup table used by `isValidTurn` and the agents. -/
def oppositeDir : Direction → Direction
  | .up => .down
  | .down => .up
  | .left => .right
  | .right => .left

/-- Mirrors `isValidTurn(last, next)`: a turn is valid unless it is a 180 degree
reversal (`last !== opposites[next]`). -/
def isValidTurn (last next : Direction) : Bool :=
  last ≠ oppositeDir next

/-- The heading the step function actually uses: the agent's requested move
if it is a valid turn, otherwise the snake's previous heading. -/
def acceptMove (current requested : Direction) : Direction :=
  if isValidTurn current requested then requested else current

/-- Advance a point one cell along a heading (the `switch` on
`newSnake.direction` in `step`). -/
def applyDir (d : Direction) (p : Point) : Point :=
  match d with
  | .up => { p with y := p.y - 1 }
  | .down => { p with y := p.y + 1 }
  | .left => { p with x := p.x - 1 }
  | .right => { p with x := p.x + 1 }

/-- Mirrors `isValidPosition`: inside the 20 by 20 board. -/
def isValidPosition (p : Point) : Bool :=
  0 ≤ p.x && p.x < (BOARD_SIZE : Int) && 0 ≤ p.y && p.y < (BOARD_SIZE : Int)

/-- Mirrors `isColliding(head, body)`: some body segment has the same coordinates. -/
def isColliding (head : Point) (body : List Point) : Bool :=
  body.any fun seg => seg.x == head.x && seg.y == head.y

/-- Mirrors `newFoods.findIndex(food => food.x === newHead.x && food.y === newHead.y)`,
returning `none` for `-1`. -/
def findFoodIdx (p : Point) : List Point → Option Nat
  | [] => none
  | f :: rest =>
    if f.x == p.x && f.y == p.y then some 0
    else (findFoodIdx p rest).map (· + 1)

/-- Occupancy test of `getNextFoodPosition`: the cell is in some snake's body
(the source stores the union of body cells in a string-keyed `Set`, which for
integer coordinates is exactly coordinate equality). -/
def isOccupied (snakes : List Snake) (p : Point) : Bool :=
  snakes.any fun sn => sn.body.any fun seg => seg.x == p.x && seg.y == p.y

/-- The 400 board cells, in the order `choices` enumerates them
(`x = i % BOARD_SIZE`, `y = floor(i / BOARD_SIZE)`). -/
def boardCells : List Point :=
  (List.range (BOARD_SIZE * BOARD_SIZE)).map fun i =>
    { x := (i % BOARD_SIZE : Nat), y := (i / BOARD_SIZE : Nat) }

/-- Mirrors `availablePositions`: board cells not occupied by any snake body cell. -/
def availablePositions (snakes : List Snake) : List Point :=
  boardCells.filter fun p => ! isOccupied snakes p

/-- Mirrors `getNextFoodPosition` with the random draw modelled by an index `r`:
the JavaScript `Math.floor(Math.random() * len)` is a uniform index below
`len`, modelled here as `r % len`.  Returns `none` exactly when
`availablePositions` is empty, where the source throws
`new Error("No available positions for food")`. -/
def getNextFoodPosition (r : Nat) (snakes : List Snake) : Option Point :=
  let avail := availablePositions snakes
  avail[r % avail.length]?

/-- Mark a snake dead (`snake.alive = false` in the collision pass). -/
def killSnake (s : Snake) : Snake := { s with alive := false }

/-- One iteration of the inner collision loop of `step`, for the ordered pair
`(i, j)` of snake indices.  Skips `i = j` and dead `snakeB`; otherwise kills
`snakeA` if its head lies in `snakeB`'s body, then kills `snakeB` if its head
lies in `snakeA`'s body.  Bodies are never changed by the pass, so reading
`A`/`B` once is faithful to the source's object references.  The fallback for
an empty body is unreachable from `step` (every alive snake there has a
non-empty body; on such inputs the source would fault reading `body[0].x`). -/
def innerStep (i : Nat) (snakes : List Snake) (j : Nat) : List Snake :=
  if i = j then snakes
  else
    match snakes[i]?, snakes[j]? with
    | some A, some B =>
      if ! B.alive then snakes
      else
        match A.body.head?, B.body.head? with
        | some ha, some hb =>
          let s1 := if isColliding ha B.body then snakes.set i (killSnake A) else snakes
          if isColliding hb A.body then s1.set j (killSnake B) else s1
        | _, _ => snakes
    | _, _ => snakes

/-- One iteration of the outer collision loop: skip a dead `snakeA`, otherwise
run the inner loop over all `j`. -/
def outerStep (snakes : List Snake) (i : Nat) : List Snake :=
  match snakes[i]? with
  | some A =>
    if ! A.alive then snakes
    else (List.range snakes.length).foldl (innerStep i) snakes
  | none => snakes

/-- The full cross-snake collision pass of `step` (the two nested `for`
loops). -/
def collisionPass (snakes : List Snake) : List Snake :=
  (List.range snakes.length).foldl outerStep snakes

/-- The state of one alive snake with non-empty body `h :: t` after the
movement part of the per-snake update in `step` (before the food branch):
the accepted heading, the advanced head prepended when the new position is
in bounds and not self-colliding, else the unchanged body with the alive
flag cleared. -/
def movedSnake (dirReq : Direction) (snake : Snake) (h : Point) (t : List Point) :
    Snake :=
  { body :=
      if isValidPosition (applyDir (acceptMove snake.direction dirReq) h) &&
          ! isColliding (applyDir (acceptMove snake.direction dirReq) h) (h :: t)
      then applyDir (acceptMove snake.direction dirReq) h :: h :: t
      else h :: t,
    direction := acceptMove snake.direction dirReq,
    alive :=
      isValidPosition (applyDir (acceptMove snake.direction dirReq) h) &&
        ! isColliding (applyDir (acceptMove snake.direction dirReq) h) (h :: t) }

/-- The per-snake body of `state.snakes.map` in `step`, for the snake at the
current index.  `done` are the snakes already processed (their body arrays are
already mutated in the source, because `{ ...snake }` shares the body array),
`todo` are the not yet processed snakes (pre-move bodies).  The occupancy
snapshot passed to `getNextFoodPosition(state.snakes)` is therefore
`done ++ current ++ todo`.  Returns the updated snake, the updated food list
and the next random-draw counter, or `none` when food placement throws. -/
def processSnake (dirReq : Direction) (done todo : List Snake) (rand : Nat → Nat)
    (k : Nat) (snake : Snake) (foods : List Point) :
    Option (Snake × List Point × Nat) :=
  if snake.alive = false then some (snake, foods, k)
  else
    match snake.body with
    | [] =>
      -- body[0] is undefined: the computed head matches no food and fails the
      -- bounds check, so the snake dies and the empty body is unchanged.
      some ({ body := [],
              direction := acceptMove snake.direction dirReq,
              alive := false }, foods, k)
    | h :: t =>
      let ms := movedSnake dirReq snake h t
      match findFoodIdx (applyDir (acceptMove snake.direction dirReq) h) foods with
      | some fi =>
        -- the snake ate: place a new food against the in-place mutated
        -- occupancy and keep the grown body (no tail drop this tick)
        match getNextFoodPosition (rand k) (done ++ ms :: todo) with
        | none => none
        | some nf => some (ms, foods.eraseIdx fi ++ [nf], k + 1)
      | none =>
        -- no food: `pop()` drops the last body cell
        some ({ ms with body := ms.body.dropLast }, foods, k)

/-- The move phase of `step`: process the snakes in index order, threading the
food list, the mutated-body occupancy and the random-draw counter. -/
def movePhase (moves : Nat → Direction) (rand : Nat → Nat) :
    Nat → List Snake → List Snake → List Point → Nat →
    Option (List Snake × List Point × Nat)
  | _, done, [], foods, k => some (done, foods, k)
  | idx, done, snake :: todo, foods, k =>
    match processSnake (moves idx) done todo rand k snake foods with
    | none => none
    | some (sn, foods1, k1) => movePhase moves rand (idx + 1) (done ++ [sn]) todo foods1 k1

/-- The `step` function: move phase, collision pass, step counter increment.
`none` models the food placement `Error` propagating out of the tick. -/
def step (moves : Nat → Direction) (rand : Nat → Nat) (s : GameState) :
    Option GameState :=
  match movePhase moves rand 0 [] s.snakes s.foods 0 with
  | none => none
  | some (snakes1, foods1, _) =>
    some { snakes := collisionPass snakes1, foods := foods1, steps := s.steps + 1 }

/-- What the previous `GameState`'s objects look like after `step` returns:
`{ ...snake }` shares the body array, and `unshift`/`pop` mutate it, so an
alive snake's body in the old state becomes the post-move body; `direction`
and `alive` are written only on the copies and dead snakes are returned
untouched.  The first component is the state `step` returns, the second the
mutated previous state. -/
def stepWithOld (moves : Nat → Direction) (rand : Nat → Nat) (s : GameState) :
    Option (GameState × GameState) :=
  match movePhase moves rand 0 [] s.snakes s.foods 0 with
  | none => none
  | some (snakes1, foods1, _) =>
    some ({ snakes := collisionPass snakes1, foods := foods1, steps := s.steps + 1 },
      { snakes := List.zipWith
          (fun old new => if old.alive then { old with body := new.body } else old)
          s.snakes snakes1,
        foods := s.foods, steps := s.steps })

/-- Mirrors `CircleAgent.getMove`: switch on `floor(steps / 5) % 4`; the `default`
branch reads the snake's own direction (it would fault for a missing index,
hence `Option`). -/
def circleMove (s : GameState) (idx : Nat) : Option Direction :=
  match (s.steps / 5) % 4 with
  | 0 => some .up
  | 1 => some .right
  | 2 => some .down
  | 3 => some .left
  | _ => (s.snakes[idx]?).map (·.direction)

/-- The closest-food scan of `SimpleAgent.getMove`: fold over the foods
keeping the first food of strictly smallest Manhattan distance
(`closestDistance` starts at `Infinity`, so the first food always wins the
first comparison). -/
def closestFood (head : Point) (foods : List Point) : Option Point :=
  (foods.foldl
    (fun acc f =>
      let d := (head.x - f.x).natAbs + (head.y - f.y).natAbs
      match acc with
      | none => some (f, d)
      | some (bf, bd) => if d < bd then some (f, d) else some (bf, bd))
    none).map (·.1)

/-- The wish pipeline of `SimpleAgent.getMove` after the closest food is
known: four sequential `if` assignments (so a vertical wish overwrites a
horizontal one), the 180-degree check against the current heading with the
wall-avoiding deflection, and the final `wish || snake.direction`. -/
def simpleWish (head : Point) (cf : Point) (current : Direction) : Direction :=
  let w1 : Option Direction := if head.x < cf.x then some .right else none
  let w2 : Option Direction := if head.x > cf.x then some .left else w1
  let w3 : Option Direction := if head.y < cf.y then some .down else w2
  let w4 : Option Direction := if head.y > cf.y then some .up else w3
  let w5 : Option Direction :=
    match w4 with
    | some w =>
      if w = oppositeDir current then
        if w = .up ∨ w = .down then
          some (if head.x < (BOARD_SIZE : Int) / 2 then .right else .left)
        else
          some (if head.y < (BOARD_SIZE : Int) / 2 then .down else .up)
      else some w
    | none => none
  w5.getD current

/-- Mirrors `SimpleAgent.getMove`.  `none` models the faults of the source: a missing
snake index, or an empty body with a non-empty food list (`head.x` on
`undefined` is only evaluated inside the loop over foods).  With an empty food
list `closestFood` is `null` and the current heading is returned. -/
def simpleAgentMove (s : GameState) (idx : Nat) : Option Direction :=
  match s.snakes[idx]? with
  | none => none
  | some snake =>
    match s.foods with
    | [] => some snake.direction
    | _ :: _ =>
      match snake.body.head? with
      | none => none
      | some head =>
        match closestFood head s.foods with
        | none => some snake.direction
        | some cf => some (simpleWish head cf snake.direction)

/-- Mirrors `KeyboardAgent.handleKeydown`: map an arrow key to a heading, ignore
other keys. -/
def keyFromString (key : String) : Option Direction :=
  if key = "ArrowUp" then some .up
  else if key = "ArrowDown" then some .down
  else if key = "ArrowLeft" then some .left
  else if key = "ArrowRight" then some .right
  else none

/-- The buffer update of `handleKeydown`: push the decoded heading to the back
of `nextMoves`. -/
def handleKeydown (key : String) (buffer : List Direction) : List Direction :=
  match keyFromString key with
  | some w => buffer ++ [w]
  | none => buffer

/-- Mirrors `KeyboardAgent.getMove`: `shift()` removes the front of the buffer; an
empty buffer falls back to the snake's current heading (`none` models the
fault on a missing snake index).  Returns the move and the remaining
buffer. -/
def keyboardGetMove (buffer : List Direction) (s : GameState) (idx : Nat) :
    Option (Direction × List Direction) :=
  match buffer with
  | m :: rest => some (m, rest)
  | [] => (s.snakes[idx]?).map fun sn => (sn.direction, [])

/-- The private state of a `KeyboardAgent`: its `nextMoves` buffer and whether
its `keydown` listener is currently registered on the window. -/
structure KeyboardAgentState where
  buffer : List Direction
  listening : Bool
deriving DecidableEq, Repr

/-- Mirrors `KeyboardAgent.setup`: `window.addEventListener("keydown", handleKeydown)`,
modelled as the listener becoming registered. -/
def keyboardSetup (st : KeyboardAgentState) : KeyboardAgentState :=
  { st with listening := true }

/-- Mirrors `KeyboardAgent.teardown`: `window.removeEventListener`, the listener is no
longer registered. -/
def keyboardTeardown (st : KeyboardAgentState) : KeyboardAgentState :=
  { st with listening := false }

/-- Manhattan distance, as `SimpleAgent` computes it. -/
def manhattan (a b : Point) : Nat :=
  (a.x - b.x).natAbs + (a.y - b.y).natAbs

/-- Modelled from the spec (for comparison with the source in claim C8): the
greedy heading that reduces the larger coordinate delta first, with the same
reversal deflection away from the nearer wall. -/
def specGreedyWish (head cf : Point) (current : Direction) : Direction :=
  let dx := (head.x - cf.x).natAbs
  let dy := (head.y - cf.y).natAbs
  let w : Option Direction :=
    if dx ≥ dy ∧ dx ≠ 0 then (if head.x < cf.x then some .right else some .left)
    else if dy ≠ 0 then (if head.y < cf.y then some .down else some .up)
    else none
  let w5 : Option Direction :=
    match w with
    | some d =>
      if d = oppositeDir current then
        if d = .up ∨ d = .down then
          some (if head.x < (BOARD_SIZE : Int) / 2 then .right else .left)
        else
          some (if head.y < (BOARD_SIZE : Int) / 2 then .down else .up)
      else some d
    | none => none
  w5.getD current

/-- A concrete snake used by the C9 witness. -/
def kbSnake : Snake := { body := [⟨1, 1⟩], direction := .left, alive := true }

/-- A concrete one-snake state used by the C9 witness. -/
def kbState : GameState := { snakes := [kbSnake], foods := [], steps := 0 }

/-- The concrete state refuting C8 as stated: head `(0,0)`, single food
`(5,1)`, current heading `down`.  The larger delta is horizontal (5 versus 1),
so the claim predicts `right`; the source's later `if` on the y axis
overwrites the horizontal wish and returns `down`. -/
def c8state : GameState :=
  { snakes := [{ body := [⟨0, 0⟩], direction := .down, alive := true }],
    foods := [⟨5, 1⟩], steps := 0 }

/-- A snake whose body covers every board cell (the head cell is duplicated so
that the body has an explicit cons shape); used to exercise the fatal
food-placement branch of claim C7. -/
def fullSnake : Snake :=
  { body := ⟨0, 0⟩ :: boardCells, direction := .right, alive := true }

/-- A state in which the single snake covers the whole board and is about to
eat: food placement must fail and the tick must abort. -/
def fullState : GameState :=
  { snakes := [fullSnake], foods := [⟨1, 0⟩], steps := 0 }

/-- The relation between a snake list and the result of any part of the
collision pass: each entry is either unchanged or killed in place (bodies and
directions are never modified by the pass). -/
def Shadow (s0 s : List Snake) : Prop :=
  ∀ k : Nat, s[k]? = s0[k]? ∨ s[k]? = (s0[k]?).map killSnake

/-- The configuration `(done, foods, randomCounter)` of the move phase just
before its `j`-th remaining snake is processed: the partial run of
`movePhase`, used to state per-snake properties of a tick. -/
def movePhaseCfg (moves : Nat → Direction) (rand : Nat → Nat) :
    Nat → List Snake → List Snake → List Point → Nat → Nat →
    Option (List Snake × List Point × Nat)
  | _, done, _, foods, k, 0 => some (done, foods, k)
  | _, _, [], _, _, Nat.succ _ => none
  | idx, done, snake :: todo, foods, k, Nat.succ j =>
    match processSnake (moves idx) done todo rand k snake foods with
    | none => none
    | some (sn, f1, k1) =>
      movePhaseCfg moves rand (idx + 1) (done ++ [sn]) todo f1 k1 j

/-- Concrete state for the C1 counterexample: a snake at the top wall heading
up; this tick it dies, and the source still pops its tail. -/
def c1state : GameState :=
  { snakes := [{ body := [⟨5, 0⟩, ⟨5, 1⟩, ⟨5, 2⟩], direction := .up, alive := true }],
    foods := [⟨0, 0⟩], steps := 0 }

/-- Concrete state for the C1 (amended) witness: a snake about to eat the food
directly ahead of it. -/
def c1wit : GameState :=
  { snakes := [{ body := [⟨5, 5⟩, ⟨4, 5⟩], direction := .right, alive := true }],
    foods := [⟨6, 5⟩], steps := 0 }

/-- Concrete state for the C2 witness: a snake heading right whose agent
requests `left`, the exact reversal. -/
def c2state : GameState :=
  { snakes := [{ body := [⟨5, 5⟩, ⟨4, 5⟩], direction := .right, alive := true }],
    foods := [], steps := 0 }

/-- Concrete state for the C3 counterexample: snake 0 moves right and vacates
its tail cell `(2,3)`; snake 1 eats the food at `(10,9)`; the random draw 60
places the new food exactly on the vacated pre-move body cell `(2,3)`. -/
def c3state : GameState :=
  { snakes := [{ body := [⟨2, 2⟩, ⟨2, 3⟩], direction := .right, alive := true },
               { body := [⟨10, 10⟩], direction := .up, alive := true }],
    foods := [⟨10, 9⟩], steps := 0 }

/-- Concrete state for the C4 witness: two snakes whose heads move into the
same empty in-bounds cell `(5,5)` on the same tick. -/
def c4state : GameState :=
  { snakes := [{ body := [⟨4, 5⟩, ⟨3, 5⟩], direction := .right, alive := true },
               { body := [⟨6, 5⟩, ⟨7, 5⟩], direction := .left, alive := true }],
    foods := [⟨0, 0⟩], steps := 0 }

/-- Concrete state for the C5 witness: one dead snake and one alive snake. -/
def c5state : GameState :=
  { snakes := [{ body := [⟨3, 3⟩], direction := .up, alive := false },
               { body := [⟨7, 7⟩, ⟨7, 8⟩], direction := .up, alive := true }],
    foods := [], steps := 4 }

/-- Concrete state for the C6 counterexample: a single moving snake; the
shallow copy makes the step mutate this state's body array in place. -/
def c6state : GameState :=
  { snakes := [{ body := [⟨5, 5⟩, ⟨5, 6⟩], direction := .up, alive := true }],
    foods := [], steps := 0 }

/-- The state `step` produces from `c1wit` (the snake ate and grew). -/
def c1witResult : GameState :=
  { snakes := [{ body := [⟨6, 5⟩, ⟨5, 5⟩, ⟨4, 5⟩], direction := .right, alive := true }],
    foods := [⟨3, 0⟩], steps := 1 }

/-- The state `step` produces from `c2state` (the reversal was rejected and
the snake moved right). -/
def c2result : GameState :=
  { snakes := [{ body := [⟨6, 5⟩, ⟨5, 5⟩], direction := .right, alive := true }],
    foods := [], steps := 1 }

/-- The state `step` produces from `c4state` (both snakes died head-on). -/
def c4result : GameState :=
  { snakes := [{ body := [⟨5, 5⟩, ⟨4, 5⟩], direction := .right, alive := false },
               { body := [⟨5, 5⟩, ⟨6, 5⟩], direction := .left, alive := false }],
    foods := [⟨0, 0⟩], steps := 1 }

/-- The state `step` produces from `c5state` (the dead snake frozen, the
alive one moved up). -/
def c5result : GameState :=
  { snakes := [{ body := [⟨3, 3⟩], direction := .up, alive := false },
               { body := [⟨7, 6⟩, ⟨7, 7⟩], direction := .up, alive := true }],
    foods := [], steps := 5 }

/-- The new state `step` produces from `c6state`. -/
def c6result : GameState :=
  { snakes := [{ body := [⟨5, 4⟩, ⟨5, 5⟩], direction := .up, alive := true }],
    foods := [], steps := 1 }

/-- What the previous state `c6state` looks like after the tick: its body
array was mutated in place to the post-move body. -/
def c6old : GameState :=
  { snakes := [{ body := [⟨5, 4⟩, ⟨5, 5⟩], direction := .up, alive := true }],
    foods := [], steps := 0 }

section AgentLemmas

/-- Evaluation of `circleMove`: the default branch is unreachable because
`(steps / 5) % 4 < 4`. -/
theorem circleMove_eq (s : GameState) (i : Nat) :
    circleMove s i =
      some (if (s.steps / 5) % 4 = 0 then Direction.up
        else if (s.steps / 5) % 4 = 1 then Direction.right
        else if (s.steps / 5) % 4 = 2 then Direction.down else Direction.left) := by
  have h4 : (s.steps / 5) % 4 < 4 := Nat.mod_lt _ (by norm_num)
  have h5 : (s.steps / 5) % 4 = 0 ∨ (s.steps / 5) % 4 = 1 ∨
      (s.steps / 5) % 4 = 2 ∨ (s.steps / 5) % 4 = 3 := by omega
  rcases h5 with h | h | h | h <;> simp [circleMove, h]

/-- The fold of `closestFood` returns a pair whose second component is the
distance of the first, whose first component is the accumulator's point or a
member of the list, beating every list member and the accumulator. -/
theorem closestFood_fold_spec (head : Point) :
    ∀ (l : List Point) (acc : Option (Point × Nat)),
      (∀ bf0 bd0, acc = some (bf0, bd0) → bd0 = manhattan head bf0) →
      ∀ bf bd,
        l.foldl
          (fun acc f =>
            let d := (head.x - f.x).natAbs + (head.y - f.y).natAbs
            match acc with
            | none => some (f, d)
            | some (bf, bd) => if d < bd then some (f, d) else some (bf, bd))
          acc = some (bf, bd) →
        bd = manhattan head bf ∧
        (acc = some (bf, bd) ∨ bf ∈ l) ∧
        (∀ f ∈ l, bd ≤ manhattan head f) ∧
        (∀ bf0 bd0, acc = some (bf0, bd0) → bd ≤ bd0) := by
  intro l
  induction l with
  | nil =>
    intro acc hacc bf bd h
    simp only [List.foldl_nil] at h
    subst h
    refine ⟨hacc _ _ rfl, Or.inl rfl, by simp, ?_⟩
    intro bf0 bd0 h0
    cases h0
    exact Nat.le_refl _
  | cons f l ih =>
    intro acc hacc bf bd h
    simp only [List.foldl_cons] at h
    have hd : (head.x - f.x).natAbs + (head.y - f.y).natAbs = manhattan head f := rfl
    -- the updated accumulator
    rcases hacc2 : acc with _ | ⟨bf0, bd0⟩
    · subst hacc2
      simp only [hd] at h
      have hacc' : ∀ bf0 bd0, (some (f, manhattan head f) : Option (Point × Nat)) = some (bf0, bd0) →
          bd0 = manhattan head bf0 := by
        intro bf0 bd0 h0; cases h0; rfl
      obtain ⟨h1, h2, h3, h4⟩ := ih _ hacc' bf bd h
      refine ⟨h1, ?_, ?_, ?_⟩
      · rcases h2 with h2 | h2
        · cases h2; exact Or.inr (by simp)
        · exact Or.inr (by simp [h2])
      · intro g hg
        rcases List.mem_cons.mp hg with rfl | hg
        · exact h4 _ _ rfl
        · exact h3 _ hg
      · intro bf1 bd1 h0; cases h0
    · subst hacc2
      have hbd0 : bd0 = manhattan head bf0 := hacc _ _ rfl
      by_cases hlt : manhattan head f < bd0
      · simp only [hd, hlt, if_pos] at h
        have hacc' : ∀ bf1 bd1, (some (f, manhattan head f) : Option (Point × Nat)) = some (bf1, bd1) →
            bd1 = manhattan head bf1 := by
          intro bf1 bd1 h0; cases h0; rfl
        obtain ⟨h1, h2, h3, h4⟩ := ih _ hacc' bf bd h
        refine ⟨h1, ?_, ?_, ?_⟩
        · rcases h2 with h2 | h2
          · cases h2; exact Or.inr (by simp)
          · exact Or.inr (by simp [h2])
        · intro g hg
          rcases List.mem_cons.mp hg with rfl | hg
          · exact h4 _ _ rfl
          · exact h3 _ hg
        · intro bf1 bd1 h0
          cases h0
          have := h4 _ _ rfl
          omega
      · simp only [hd, hlt, if_neg, not_false_iff] at h
        have hacc' : ∀ bf1 bd1, (some (bf0, bd0) : Option (Point × Nat)) = some (bf1, bd1) →
            bd1 = manhattan head bf1 := by
          intro bf1 bd1 h0; cases h0; exact hbd0
        obtain ⟨h1, h2, h3, h4⟩ := ih _ hacc' bf bd h
        refine ⟨h1, ?_, ?_, ?_⟩
        · rcases h2 with h2 | h2
          · cases h2; exact Or.inl rfl
          · exact Or.inr (by simp [h2])
        · intro g hg
          rcases List.mem_cons.mp hg with rfl | hg
          · have := h4 _ _ rfl
            omega
          · exact h3 _ hg
        · intro bf1 bd1 h0
          cases h0
          exact h4 _ _ rfl

/-- Lemma: `closestFood` returns a food of minimal Manhattan distance. -/
theorem closestFood_min (head : Point) (foods : List Point) (cf : Point)
    (h : closestFood head foods = some cf) :
    cf ∈ foods ∧ ∀ f ∈ foods, manhattan head cf ≤ manhattan head f := by
  unfold closestFood at h
  rcases hfold : foods.foldl
      (fun acc f =>
        let d := (head.x - f.x).natAbs + (head.y - f.y).natAbs
        match acc with
        | none => some (f, d)
        | some (bf, bd) => if d < bd then some (f, d) else some (bf, bd))
      none with _ | ⟨bf, bd⟩
  · rw [hfold] at h; simp at h
  · rw [hfold] at h
    simp only [Option.map] at h
    cases h
    obtain ⟨h1, h2, h3, _⟩ :=
      closestFood_fold_spec head foods none (by intro _ _ h; cases h) cf bd hfold
    rcases h2 with h2 | h2
    · cases h2
    · exact ⟨h2, fun f hf => h1 ▸ h3 f hf⟩

end AgentLemmas

section EasyClaims

/-- C10: `CircleAgent.getMove` depends only on the step counter: two states
with equal `steps` produce the same move for any snake indices, and the move
is `up`/`right`/`down`/`left` selected by `floor(steps / 5) % 4`; the
fallback branch reading the snake's own direction is unreachable. -/
theorem circleAgent_deterministic :
    (∀ (s1 s2 : GameState) (i1 i2 : Nat), s1.steps = s2.steps →
      circleMove s1 i1 = circleMove s2 i2) ∧
    (∀ (s : GameState) (i : Nat),
      circleMove s i =
        some (if (s.steps / 5) % 4 = 0 then Direction.up
          else if (s.steps / 5) % 4 = 1 then Direction.right
          else if (s.steps / 5) % 4 = 2 then Direction.down else Direction.left)) := by
  refine ⟨fun s1 s2 i1 i2 h => ?_, fun s i => circleMove_eq s i⟩
  rw [circleMove_eq, circleMove_eq, h]

/-- Witness for C10 at concrete states with equal step counters. -/
theorem circleAgent_deterministic_witness :
    circleMove { snakes := [], foods := [], steps := 12 } 0 =
      circleMove
        { snakes := [{ body := [⟨1, 1⟩], direction := .left, alive := true }],
          foods := [⟨2, 2⟩], steps := 12 } 5 :=
  circleAgent_deterministic.1 _ _ 0 5 rfl

/-- C9: the keyboard agent appends decoded arrow-key presses to the back of
its buffer (arrival order), ignores other keys, dequeues exactly one buffered
direction per `getMove` in FIFO order, falls back to the snake's current
heading on an empty buffer, and registers/unregisters its listener in
setup/teardown. -/
theorem keyboardAgent_fifo :
    (∀ buffer : List Direction,
      handleKeydown "ArrowUp" buffer = buffer ++ [Direction.up] ∧
      handleKeydown "ArrowDown" buffer = buffer ++ [Direction.down] ∧
      handleKeydown "ArrowLeft" buffer = buffer ++ [Direction.left] ∧
      handleKeydown "ArrowRight" buffer = buffer ++ [Direction.right]) ∧
    (∀ (key : String) (buffer : List Direction), keyFromString key = none →
      handleKeydown key buffer = buffer) ∧
    (∀ (m : Direction) (rest : List Direction) (s : GameState) (idx : Nat),
      keyboardGetMove (m :: rest) s idx = some (m, rest)) ∧
    (∀ (s : GameState) (idx : Nat) (sn : Snake), s.snakes[idx]? = some sn →
      keyboardGetMove [] s idx = some (sn.direction, [])) ∧
    (∀ st : KeyboardAgentState,
      (keyboardSetup st).listening = true ∧ (keyboardSetup st).buffer = st.buffer ∧
      (keyboardTeardown st).listening = false ∧
      (keyboardTeardown st).buffer = st.buffer) := by
  refine ⟨fun buffer => ?_, fun key buffer h => ?_, fun m rest s idx => rfl,
    fun s idx sn h => ?_, fun st => ⟨rfl, rfl, rfl, rfl⟩⟩
  · refine ⟨?_, ?_, ?_, ?_⟩ <;> simp [handleKeydown, keyFromString]
  · simp [handleKeydown, h]
  · simp [keyboardGetMove, h]

/-- Witness for C9 at a concrete buffer, key and state. -/
theorem keyboardAgent_fifo_witness :
    keyFromString "a" = none ∧
    handleKeydown "a" [Direction.up] = [Direction.up] ∧
    kbState.snakes[0]? = some kbSnake ∧
    keyboardGetMove [] kbState 0 = some (Direction.left, []) := by
  refine ⟨by decide, keyboardAgent_fifo.2.1 "a" [Direction.up] (by decide), by decide,
    keyboardAgent_fifo.2.2.2.1 kbState 0 kbSnake (by decide)⟩

end EasyClaims

/-- C8 counterexample: at `c8state` the source returns `down` while the
claimed larger-delta-first rule (`specGreedyWish`, written from the spec's
words) returns `right`. -/
theorem simpleAgent_counterexample :
    simpleAgentMove c8state 0 = some Direction.down ∧
    specGreedyWish ⟨0, 0⟩ ⟨5, 1⟩ Direction.down = Direction.right ∧
    Direction.down ≠ Direction.right := by
  decide

/-- C8 (amended): `SimpleAgent` targets a food of minimal Manhattan distance,
but its sequential `if` chain makes the vertical heading override the
horizontal one, so it reduces the y delta first whenever it is nonzero
(regardless of which delta is larger); the horizontal greedy heading is used
only when the y coordinates agree; a greedy heading that reverses the current
heading is deflected perpendicular, away from the nearer wall; with no food,
or when the head already sits on the chosen food, the current heading is
kept. -/
theorem simpleAgent_yAxisFirst :
    (∀ (head : Point) (foods : List Point) (cf : Point),
      closestFood head foods = some cf →
      cf ∈ foods ∧ ∀ f ∈ foods, manhattan head cf ≤ manhattan head f) ∧
    (∀ (s : GameState) (idx : Nat) (snake : Snake) (head : Point) (cf : Point),
      s.snakes[idx]? = some snake → snake.body.head? = some head →
      s.foods ≠ [] → closestFood head s.foods = some cf →
      simpleAgentMove s idx = some (simpleWish head cf snake.direction)) ∧
    (∀ (s : GameState) (idx : Nat) (snake : Snake),
      s.snakes[idx]? = some snake → s.foods = [] →
      simpleAgentMove s idx = some snake.direction) ∧
    (∀ (head cf : Point) (current : Direction), head.y < cf.y →
      current ≠ Direction.up → simpleWish head cf current = Direction.down) ∧
    (∀ (head cf : Point) (current : Direction), head.y < cf.y →
      current = Direction.up → simpleWish head cf current =
        (if head.x < (BOARD_SIZE : Int) / 2 then Direction.right else Direction.left)) ∧
    (∀ (head cf : Point) (current : Direction), cf.y < head.y →
      current ≠ Direction.down → simpleWish head cf current = Direction.up) ∧
    (∀ (head cf : Point) (current : Direction), cf.y < head.y →
      current = Direction.down → simpleWish head cf current =
        (if head.x < (BOARD_SIZE : Int) / 2 then Direction.right else Direction.left)) ∧
    (∀ (head cf : Point) (current : Direction), head.y = cf.y → head.x < cf.x →
      current ≠ Direction.left → simpleWish head cf current = Direction.right) ∧
    (∀ (head cf : Point) (current : Direction), head.y = cf.y → head.x < cf.x →
      current = Direction.left → simpleWish head cf current =
        (if head.y < (BOARD_SIZE : Int) / 2 then Direction.down else Direction.up)) ∧
    (∀ (head cf : Point) (current : Direction), head.y = cf.y → cf.x < head.x →
      current ≠ Direction.right → simpleWish head cf current = Direction.left) ∧
    (∀ (head cf : Point) (current : Direction), head.y = cf.y → cf.x < head.x →
      current = Direction.right → simpleWish head cf current =
        (if head.y < (BOARD_SIZE : Int) / 2 then Direction.down else Direction.up)) ∧
    (∀ (head : Point) (current : Direction),
      simpleWish head head current = current) := by
  refine ⟨fun head foods cf h => closestFood_min head foods cf h,
    fun s idx snake head cf hs hh hf hcf => ?_, fun s idx snake hs hf => ?_,
    ?_, ?_, ?_, ?_, ?_, ?_, ?_, ?_, ?_⟩
  · unfold simpleAgentMove
    rcases hfoods : s.foods with _ | ⟨f0, fs⟩
    · exact absurd hfoods hf
    · rw [hfoods] at hcf
      simp only [hs, hfoods, hh, hcf]
  · unfold simpleAgentMove
    simp only [hs, hf]
  · intro head cf current h1 h2
    have hgt : ¬(head.y > cf.y) := by omega
    simp only [simpleWish]
    rw [if_neg hgt, if_pos h1]
    cases current with
    | up => exact absurd rfl h2
    | down => simp [oppositeDir]
    | left => simp [oppositeDir]
    | right => simp [oppositeDir]
  · intro head cf current h1 h2
    have hgt : ¬(head.y > cf.y) := by omega
    subst h2
    simp only [simpleWish]
    rw [if_neg hgt, if_pos h1]
    simp [oppositeDir]
  · intro head cf current h1 h2
    simp only [simpleWish]
    rw [if_pos h1]
    cases current with
    | up => simp [oppositeDir]
    | down => exact absurd rfl h2
    | left => simp [oppositeDir]
    | right => simp [oppositeDir]
  · intro head cf current h1 h2
    subst h2
    simp only [simpleWish]
    rw [if_pos h1]
    simp [oppositeDir]
  · intro head cf current h1 h2 h3
    have hgt : ¬(head.y > cf.y) := by omega
    have hlt : ¬(head.y < cf.y) := by omega
    have hxgt : ¬(head.x > cf.x) := by omega
    simp only [simpleWish]
    rw [if_neg hgt, if_neg hlt, if_neg hxgt, if_pos h2]
    cases current with
    | up => simp [oppositeDir]
    | down => simp [oppositeDir]
    | left => exact absurd rfl h3
    | right => simp [oppositeDir]
  · intro head cf current h1 h2 h3
    have hgt : ¬(head.y > cf.y) := by omega
    have hlt : ¬(head.y < cf.y) := by omega
    have hxgt : ¬(head.x > cf.x) := by omega
    subst h3
    simp only [simpleWish]
    rw [if_neg hgt, if_neg hlt, if_neg hxgt, if_pos h2]
    simp [oppositeDir]
  · intro head cf current h1 h2 h3
    have hgt : ¬(head.y > cf.y) := by omega
    have hlt : ¬(head.y < cf.y) := by omega
    have hxgt : head.x > cf.x := h2
    simp only [simpleWish]
    rw [if_neg hgt, if_neg hlt, if_pos hxgt]
    cases current with
    | up => simp [oppositeDir]
    | down => simp [oppositeDir]
    | left => simp [oppositeDir]
    | right => exact absurd rfl h3
  · intro head cf current h1 h2 h3
    have hgt : ¬(head.y > cf.y) := by omega
    have hlt : ¬(head.y < cf.y) := by omega
    have hxgt : head.x > cf.x := h2
    subst h3
    simp only [simpleWish]
    rw [if_neg hgt, if_neg hlt, if_pos hxgt]
    simp [oppositeDir]
  · intro head current
    simp [simpleWish]

/-- Witness for C8 (amended) at a concrete state: head `(3,3)` heading
`right`, foods `(3,7)` and `(0,0)`; the nearer food is `(3,7)` and the move
is `down`. -/
theorem simpleAgent_yAxisFirst_witness :
    ((⟨3, 7⟩ : Point) ∈ ([⟨3, 7⟩, ⟨0, 0⟩] : List Point) ∧
      ∀ f ∈ ([⟨3, 7⟩, ⟨0, 0⟩] : List Point),
        manhattan ⟨3, 3⟩ ⟨3, 7⟩ ≤ manhattan ⟨3, 3⟩ f) ∧
    simpleWish ⟨3, 3⟩ ⟨3, 7⟩ Direction.right = Direction.down := by
  refine ⟨simpleAgent_yAxisFirst.1 ⟨3, 3⟩ [⟨3, 7⟩, ⟨0, 0⟩] ⟨3, 7⟩ (by decide), ?_⟩
  exact simpleAgent_yAxisFirst.2.2.2.1 ⟨3, 3⟩ ⟨3, 7⟩ Direction.right (by decide) (by decide)

section ShadowLemmas

theorem killSnake_idem (x : Snake) : killSnake (killSnake x) = killSnake x := rfl

theorem killSnake_dead {x : Snake} (h : x.alive = false) : killSnake x = x := by
  cases x
  simp only [killSnake]
  simp_all

theorem shadow_refl (s : List Snake) : Shadow s s := fun _ => Or.inl rfl

theorem shadow_trans {a b c : List Snake} (h1 : Shadow a b) (h2 : Shadow b c) :
    Shadow a c := by
  intro k
  rcases h2 k with h2k | h2k <;> rcases h1 k with h1k | h1k
  · exact Or.inl (h2k.trans h1k)
  · exact Or.inr (h2k.trans h1k)
  · exact Or.inr (by rw [h2k, h1k])
  · refine Or.inr ?_
    rw [h2k, h1k]
    rcases a[k]? with _ | x <;> simp [killSnake_idem]

theorem shadow_set_kill {s : List Snake} {i : Nat} {A : Snake} (h : s[i]? = some A) :
    Shadow s (s.set i (killSnake A)) := by
  intro k
  by_cases hk : k = i
  · subst hk
    refine Or.inr ?_
    have hlt : k < s.length := (List.getElem?_eq_some.mp h).1
    rw [List.getElem?_set_eq_of_lt _ hlt, h]
    rfl
  · exact Or.inl (List.getElem?_set_ne (fun he => hk he.symm))

theorem innerStep_shadow (i : Nat) (s : List Snake) (j : Nat) :
    Shadow s (innerStep i s j) := by
  unfold innerStep
  by_cases hij : i = j
  · rw [if_pos hij]; exact shadow_refl s
  · rw [if_neg hij]
    rcases hA : s[i]? with _ | A
    · exact shadow_refl s
    rcases hB : s[j]? with _ | B
    · exact shadow_refl s
    simp only
    by_cases hBa : B.alive
    · simp only [hBa, Bool.not_true, Bool.false_eq_true, if_false]
      rcases hha : A.body.head? with _ | ha
      · exact shadow_refl s
      rcases hhb : B.body.head? with _ | hb
      · exact shadow_refl s
      simp only
      have hs1 : Shadow s (if isColliding ha B.body then s.set i (killSnake A) else s) := by
        by_cases hc : isColliding ha B.body
        · rw [if_pos hc]; exact shadow_set_kill hA
        · rw [if_neg hc]; exact shadow_refl s
      by_cases hc2 : isColliding hb A.body
      · rw [if_pos hc2]
        refine shadow_trans hs1 (shadow_set_kill ?_)
        by_cases hc : isColliding ha B.body
        · rw [if_pos hc]
          rw [List.getElem?_set_ne hij]
          exact hB
        · rw [if_neg hc]; exact hB
      · rw [if_neg hc2]; exact hs1
    · simp only [hBa, Bool.not_false, if_true]
      exact shadow_refl s

theorem foldl_shadow {α : Type} (f : List Snake → α → List Snake)
    (hf : ∀ s x, Shadow s (f s x)) :
    ∀ (l : List α) (s : List Snake), Shadow s (l.foldl f s) := by
  intro l
  induction l with
  | nil => intro s; exact shadow_refl s
  | cons a l ih => intro s; exact shadow_trans (hf s a) (ih (f s a))

theorem outerStep_shadow (s : List Snake) (i : Nat) : Shadow s (outerStep s i) := by
  unfold outerStep
  rcases hA : s[i]? with _ | A
  · exact shadow_refl s
  simp only
  by_cases hAa : A.alive
  · simp only [hAa, Bool.not_true, Bool.false_eq_true, if_false]
    exact foldl_shadow _ (innerStep_shadow i) _ s
  · simp only [hAa, Bool.not_false, if_true]
    exact shadow_refl s

theorem collisionPass_shadow (s : List Snake) : Shadow s (collisionPass s) :=
  foldl_shadow _ outerStep_shadow _ s

theorem shadow_body_eq {s0 s : List Snake} (h : Shadow s0 s) (k : Nat) :
    (s[k]?).map (·.body) = (s0[k]?).map (·.body) := by
  rcases h k with hk | hk
  · rw [hk]
  · rw [hk]
    rcases s0[k]? with _ | x <;> simp [killSnake]

theorem shadow_direction_eq {s0 s : List Snake} (h : Shadow s0 s) (k : Nat) :
    (s[k]?).map (·.direction) = (s0[k]?).map (·.direction) := by
  rcases h k with hk | hk
  · rw [hk]
  · rw [hk]
    rcases s0[k]? with _ | x <;> simp [killSnake]

theorem shadow_alive_mono {s0 s : List Snake} (h : Shadow s0 s) (k : Nat)
    (ha : (s[k]?).map (·.alive) = some true) :
    (s0[k]?).map (·.alive) = some true := by
  rcases h k with hk | hk
  · rw [hk] at ha; exact ha
  · rw [hk] at ha
    rcases ho : s0[k]? with _ | x
    · rw [ho] at ha; cases ha
    · rw [ho] at ha
      simp [killSnake] at ha

theorem shadow_dead_frozen {s0 s : List Snake} (h : Shadow s0 s) {k : Nat} {x : Snake}
    (hx : s0[k]? = some x) (hdead : x.alive = false) : s[k]? = some x := by
  rcases h k with hk | hk
  · rw [hk, hx]
  · rw [hk, hx]
    simp [killSnake_dead hdead]

theorem shadow_dead_alive {s0 s : List Snake} (h : Shadow s0 s) (k : Nat)
    (hd : (s0[k]?).map (·.alive) = some false) :
    (s[k]?).map (·.alive) = some false := by
  rcases ho : s0[k]? with _ | x
  · rw [ho] at hd; cases hd
  · rw [ho] at hd
    simp only [Option.map_some'] at hd
    have hx : x.alive = false := by simpa using hd
    rw [shadow_dead_frozen h ho hx]
    simp [hx]

theorem innerStep_length (i : Nat) (s : List Snake) (j : Nat) :
    (innerStep i s j).length = s.length := by
  unfold innerStep
  by_cases hij : i = j
  · rw [if_pos hij]
  · rw [if_neg hij]
    rcases s[i]? with _ | A
    · rfl
    rcases s[j]? with _ | B
    · rfl
    simp only
    by_cases hBa : B.alive
    · simp only [hBa, Bool.not_true, Bool.false_eq_true, if_false]
      rcases A.body.head? with _ | ha
      · rfl
      rcases B.body.head? with _ | hb
      · rfl
      simp only
      by_cases hc2 : isColliding hb A.body <;> by_cases hc : isColliding ha B.body <;>
        simp [hc, hc2, List.length_set]
    · simp only [hBa, Bool.not_false, if_true]

theorem foldl_length {α : Type} (f : List Snake → α → List Snake)
    (hf : ∀ s x, (f s x).length = s.length) :
    ∀ (l : List α) (s : List Snake), (l.foldl f s).length = s.length := by
  intro l
  induction l with
  | nil => intro s; rfl
  | cons a l ih => intro s; rw [List.foldl_cons, ih (f s a), hf s a]

theorem outerStep_length (s : List Snake) (i : Nat) :
    (outerStep s i).length = s.length := by
  unfold outerStep
  rcases s[i]? with _ | A
  · rfl
  simp only
  by_cases hAa : A.alive
  · simp only [hAa, Bool.not_true, Bool.false_eq_true, if_false]
    exact foldl_length _ (innerStep_length i) _ s
  · simp only [hAa, Bool.not_false, if_true]

theorem collisionPass_length (s : List Snake) : (collisionPass s).length = s.length :=
  foldl_length _ outerStep_length _ s

end ShadowLemmas

section KillLemmas

theorem head_isColliding {c : Point} {body : List Point} (h : body.head? = some c) :
    isColliding c body = true := by
  rcases body with _ | ⟨b0, rest⟩
  · cases h
  · have hb : b0 = c := by simpa using h
    subst hb
    simp [isColliding]

theorem isColliding_ne_nil {c : Point} {body : List Point}
    (h : isColliding c body = true) : body ≠ [] := by
  intro he
  rw [he] at h
  simp [isColliding] at h

theorem innerStep_get_other {i j k : Nat} (s : List Snake) (hki : k ≠ i) (hkj : k ≠ j) :
    (innerStep i s j)[k]? = s[k]? := by
  unfold innerStep
  by_cases hij : i = j
  · rw [if_pos hij]
  · rw [if_neg hij]
    rcases s[i]? with _ | A
    · rfl
    rcases s[j]? with _ | B
    · rfl
    simp only
    by_cases hBa : B.alive
    · simp only [hBa, Bool.not_true, Bool.false_eq_true, if_false]
      rcases A.body.head? with _ | ha
      · rfl
      rcases B.body.head? with _ | hb
      · rfl
      simp only
      by_cases hc2 : isColliding hb A.body <;> by_cases hc : isColliding ha B.body <;>
        simp [hc, hc2, List.getElem?_set_ne (fun he => hki he.symm),
          List.getElem?_set_ne (fun he => hkj he.symm)]
    · simp only [hBa, Bool.not_false, if_true]

theorem innerStep_kill_B {i j : Nat} {s : List Snake} {A B : Snake} {hb : Point}
    (hij : i ≠ j) (hA : s[i]? = some A) (hB : s[j]? = some B)
    (hhb : B.body.head? = some hb) (hcoll : isColliding hb A.body = true) :
    ((innerStep i s j)[j]?).map (·.alive) = some false := by
  have hlt : j < s.length := (List.getElem?_eq_some.mp hB).1
  unfold innerStep
  rw [if_neg hij, hA, hB]
  simp only
  by_cases hBa : B.alive
  · simp only [hBa, Bool.not_true, Bool.false_eq_true, if_false]
    have hne : A.body ≠ [] := isColliding_ne_nil hcoll
    rcases hha : A.body.head? with _ | ha
    · exact absurd (List.head?_eq_none_iff.mp hha) hne
    rw [hhb]
    simp only
    rw [if_pos hcoll]
    have hlt1 : j < (if isColliding ha B.body then s.set i (killSnake A) else s).length := by
      by_cases hc : isColliding ha B.body <;> simp [hc, List.length_set, hlt]
    rw [List.getElem?_set_eq_of_lt _ hlt1]
    rfl
  · simp only [hBa, Bool.not_false, if_true]
    rw [hB]
    simp [hBa]

theorem innerStep_kill_pair {i j : Nat} {s : List Snake} {A B : Snake} {ha hb : Point}
    (hij : i ≠ j) (hA : s[i]? = some A) (hB : s[j]? = some B) (hBalive : B.alive = true)
    (hha : A.body.head? = some ha) (hhb : B.body.head? = some hb)
    (hcAB : isColliding ha B.body = true) (hcBA : isColliding hb A.body = true) :
    ((innerStep i s j)[i]?).map (·.alive) = some false ∧
    ((innerStep i s j)[j]?).map (·.alive) = some false := by
  have hlti : i < s.length := (List.getElem?_eq_some.mp hA).1
  have hltj : j < s.length := (List.getElem?_eq_some.mp hB).1
  unfold innerStep
  rw [if_neg hij, hA, hB]
  simp only [hBalive, Bool.not_true, Bool.false_eq_true, if_false]
  rw [hha, hhb]
  simp only
  rw [if_pos hcAB, if_pos hcBA]
  constructor
  · rw [List.getElem?_set_ne (fun he => hij he.symm),
      List.getElem?_set_eq_of_lt _ hlti]
    rfl
  · have hltj1 : j < (s.set i (killSnake A)).length := by simp [List.length_set, hltj]
    rw [List.getElem?_set_eq_of_lt _ hltj1]
    rfl

theorem inner_fold_kills (a t : Nat) :
    ∀ (l : List Nat) (s : List Snake), a ≠ t → t ∈ l →
      (∃ A T ht, s[a]? = some A ∧ s[t]? = some T ∧ T.body.head? = some ht ∧
        isColliding ht A.body = true) →
      ((l.foldl (innerStep a) s)[t]?).map (·.alive) = some false := by
  intro l
  induction l with
  | nil =>
    intro s _ hmem _
    simp at hmem
  | cons j l ih =>
    rintro s hat hmem ⟨A, T, ht, hA, hT, hhead, hcoll⟩
    rw [List.foldl_cons]
    by_cases hjt : j = t
    · subst hjt
      have hdead := innerStep_kill_B hat hA hT hhead hcoll
      exact shadow_dead_alive (foldl_shadow _ (innerStep_shadow a) l _) _ hdead
    · have hmem' : t ∈ l := by
        rcases List.mem_cons.mp hmem with h | h
        · exact absurd h.symm hjt
        · exact h
      have hsh := innerStep_shadow a s j
      obtain ⟨A', hA', hAb⟩ : ∃ A', (innerStep a s j)[a]? = some A' ∧ A'.body = A.body := by
        rcases hsh a with hk | hk
        · exact ⟨A, by rw [hk, hA], rfl⟩
        · exact ⟨killSnake A, by rw [hk, hA]; rfl, rfl⟩
      obtain ⟨T', hT', hTb⟩ : ∃ T', (innerStep a s j)[t]? = some T' ∧ T'.body = T.body := by
        rcases hsh t with hk | hk
        · exact ⟨T, by rw [hk, hT], rfl⟩
        · exact ⟨killSnake T, by rw [hk, hT]; rfl, rfl⟩
      exact ih _ hat hmem' ⟨A', T', ht, hA', hT', by rw [hTb]; exact hhead,
        by rw [hAb]; exact hcoll⟩

theorem inner_fold_pair (a t : Nat) :
    ∀ (l : List Nat) (s : List Snake), a ≠ t → t ∈ l →
      (∃ A T ha ht, s[a]? = some A ∧ s[t]? = some T ∧ T.alive = true ∧
        A.body.head? = some ha ∧ T.body.head? = some ht ∧
        isColliding ha T.body = true ∧ isColliding ht A.body = true) →
      ((l.foldl (innerStep a) s)[a]?).map (·.alive) = some false ∧
      ((l.foldl (innerStep a) s)[t]?).map (·.alive) = some false := by
  intro l
  induction l with
  | nil =>
    intro s _ hmem _
    simp at hmem
  | cons j l ih =>
    rintro s hat hmem ⟨A, T, ha, ht, hA, hT, hTalive, hha, hht, hcAT, hcTA⟩
    rw [List.foldl_cons]
    by_cases hjt : j = t
    · subst hjt
      obtain ⟨hda, hdt⟩ := innerStep_kill_pair hat hA hT hTalive hha hht hcAT hcTA
      have hsh := foldl_shadow _ (innerStep_shadow a) l (innerStep a s j)
      exact ⟨shadow_dead_alive hsh _ hda, shadow_dead_alive hsh _ hdt⟩
    · have hmem' : t ∈ l := by
        rcases List.mem_cons.mp hmem with h | h
        · exact absurd h.symm hjt
        · exact h
      have hsh := innerStep_shadow a s j
      obtain ⟨A', hA', hAb⟩ : ∃ A', (innerStep a s j)[a]? = some A' ∧ A'.body = A.body := by
        rcases hsh a with hk | hk
        · exact ⟨A, by rw [hk, hA], rfl⟩
        · exact ⟨killSnake A, by rw [hk, hA]; rfl, rfl⟩
      have hT' : (innerStep a s j)[t]? = some T :=
        (innerStep_get_other s (fun he => hat he.symm) (fun he => hjt he.symm)).trans hT
      exact ih _ hat hmem' ⟨A', T, ha, ht, hA', hT', hTalive,
        by rw [hAb]; exact hha, hht, hcAT, by rw [hAb]; exact hcTA⟩

theorem inner_fold_preserve (a t : Nat) :
    ∀ (l : List Nat) (s : List Snake), a ≠ t →
      (∃ A T ht, s[a]? = some A ∧ s[t]? = some T ∧ T.body.head? = some ht ∧
        isColliding ht A.body = false) →
      (l.foldl (innerStep a) s)[t]? = s[t]? := by
  intro l
  induction l with
  | nil =>
    intro s _ _
    rfl
  | cons j l ih =>
    rintro s hat ⟨A, T, ht, hA, hT, hhead, hcoll⟩
    rw [List.foldl_cons]
    have h1 : (innerStep a s j)[t]? = some T := by
      by_cases hjt : j = t
      · subst hjt
        unfold innerStep
        rw [if_neg hat, hA, hT]
        simp only
        by_cases hTa : T.alive
        · simp only [hTa, Bool.not_true, Bool.false_eq_true, if_false]
          rcases hha : A.body.head? with _ | ha
          · exact hT
          rw [hhead]
          simp only
          rw [if_neg (by rw [hcoll]; exact Bool.false_ne_true)]
          by_cases hc : isColliding ha T.body
          · rw [if_pos hc, List.getElem?_set_ne hat]
            exact hT
          · rw [if_neg hc]
            exact hT
        · simp only [hTa, Bool.not_false, if_true]
          exact hT
      · exact (innerStep_get_other s (fun he => hat he.symm)
          (fun he => hjt he.symm)).trans hT
    rw [hT]
    have hsh := innerStep_shadow a s j
    obtain ⟨A', hA', hAb⟩ : ∃ A', (innerStep a s j)[a]? = some A' ∧ A'.body = A.body := by
      rcases hsh a with hk | hk
      · exact ⟨A, by rw [hk, hA], rfl⟩
      · exact ⟨killSnake A, by rw [hk, hA]; rfl, rfl⟩
    exact (ih _ hat ⟨A', T, ht, hA', h1, hhead, by rw [hAb]; exact hcoll⟩).trans h1

theorem outerStep_eq_inner_fold {s : List Snake} {a : Nat} {Aa : Snake}
    (hAa : s[a]? = some Aa) (halive : Aa.alive = true) :
    outerStep s a = (List.range s.length).foldl (innerStep a) s := by
  unfold outerStep
  rw [hAa]
  simp [halive]

theorem outerStep_skip {s : List Snake} {a : Nat}
    (h : s[a]? = none ∨ ∃ Aa, s[a]? = some Aa ∧ Aa.alive = false) :
    outerStep s a = s := by
  unfold outerStep
  rcases h with h | ⟨Aa, hAa, hdead⟩
  · rw [h]
  · rw [hAa]
    simp [hdead]

theorem outer_fold_kills (i j : Nat) (c : Point) :
    ∀ (l : List Nat) (s : List Snake), i ≠ j → i ∈ l →
      ((((s[i]?).map (·.alive) = some false) ∧ ((s[j]?).map (·.alive) = some false)) ∨
        (∃ Si Sj, s[i]? = some Si ∧ s[j]? = some Sj ∧ Si.alive = true ∧ Sj.alive = true ∧
          Si.body.head? = some c ∧ Sj.body.head? = some c)) →
      ((l.foldl outerStep s)[i]?).map (·.alive) = some false ∧
      ((l.foldl outerStep s)[j]?).map (·.alive) = some false := by
  intro l
  induction l with
  | nil =>
    intro s _ hmem _
    simp at hmem
  | cons a l ih =>
    intro s hij hmem hinv
    rw [List.foldl_cons]
    rcases hinv with ⟨hdi, hdj⟩ | ⟨Si, Sj, hSi, hSj, hai, haj, hhi, hhj⟩
    · have hsh : Shadow s (l.foldl outerStep (outerStep s a)) :=
        shadow_trans (outerStep_shadow s a) (foldl_shadow _ outerStep_shadow l _)
      exact ⟨shadow_dead_alive hsh _ hdi, shadow_dead_alive hsh _ hdj⟩
    · have hi_lt : i < s.length := (List.getElem?_eq_some.mp hSi).1
      have hj_lt : j < s.length := (List.getElem?_eq_some.mp hSj).1
      by_cases hai' : a = i
      · subst hai'
        rw [outerStep_eq_inner_fold hSi hai]
        have hpair := inner_fold_pair a j (List.range s.length) s hij
          (List.mem_range.mpr hj_lt)
          ⟨Si, Sj, c, c, hSi, hSj, haj, hhi, hhj, head_isColliding hhj,
            head_isColliding hhi⟩
        have hsh := foldl_shadow _ outerStep_shadow l
          ((List.range s.length).foldl (innerStep a) s)
        exact ⟨shadow_dead_alive hsh _ hpair.1, shadow_dead_alive hsh _ hpair.2⟩
      · have hmem' : i ∈ l := by
          rcases List.mem_cons.mp hmem with h | h
          · exact absurd h.symm hai'
          · exact h
        rcases hAa : s[a]? with _ | Aa
        · rw [outerStep_skip (Or.inl hAa)]
          exact ih s hij hmem' (Or.inr ⟨Si, Sj, hSi, hSj, hai, haj, hhi, hhj⟩)
        · rcases hAalive : Aa.alive with _ | _
          · rw [outerStep_skip (Or.inr ⟨Aa, hAa, hAalive⟩)]
            exact ih s hij hmem' (Or.inr ⟨Si, Sj, hSi, hSj, hai, haj, hhi, hhj⟩)
          · rw [outerStep_eq_inner_fold hAa hAalive]
            by_cases hGood : isColliding c Aa.body = true
            · by_cases haj' : a = j
              · subst haj'
                have hAeq : Aa = Sj := by
                  rw [hAa] at hSj
                  exact Option.some.inj hSj
                subst hAeq
                have hpair := inner_fold_pair a i (List.range s.length) s
                  (fun he => hij he.symm) (List.mem_range.mpr hi_lt)
                  ⟨Aa, Si, c, c, hAa, hSi, hai, hhj, hhi, head_isColliding hhi,
                    head_isColliding hhj⟩
                have hsh := foldl_shadow _ outerStep_shadow l
                  ((List.range s.length).foldl (innerStep a) s)
                exact ⟨shadow_dead_alive hsh _ hpair.2, shadow_dead_alive hsh _ hpair.1⟩
              · have hk_i := inner_fold_kills a i (List.range s.length) s hai'
                  (List.mem_range.mpr hi_lt) ⟨Aa, Si, c, hAa, hSi, hhi, hGood⟩
                have hk_j := inner_fold_kills a j (List.range s.length) s haj'
                  (List.mem_range.mpr hj_lt) ⟨Aa, Sj, c, hAa, hSj, hhj, hGood⟩
                have hsh := foldl_shadow _ outerStep_shadow l
                  ((List.range s.length).foldl (innerStep a) s)
                exact ⟨shadow_dead_alive hsh _ hk_i, shadow_dead_alive hsh _ hk_j⟩
            · have hGood' : isColliding c Aa.body = false := by
                revert hGood
                cases isColliding c Aa.body <;> simp
              have haj' : a ≠ j := by
                intro he
                subst he
                rw [hAa] at hSj
                have : Aa = Sj := Option.some.inj hSj
                subst this
                rw [head_isColliding hhj] at hGood'
                cases hGood'
              have hp_i := inner_fold_preserve a i (List.range s.length) s hai'
                ⟨Aa, Si, c, hAa, hSi, hhi, hGood'⟩
              have hp_j := inner_fold_preserve a j (List.range s.length) s haj'
                ⟨Aa, Sj, c, hAa, hSj, hhj, hGood'⟩
              exact ih _ hij hmem'
                (Or.inr ⟨Si, Sj, hp_i.trans hSi, hp_j.trans hSj, hai, haj, hhi, hhj⟩)

/-- Two alive snakes in the post-move list whose heads sit on the same cell
are both dead after the full collision pass. -/
theorem collisionPass_kills {s : List Snake} {i j : Nat} {Si Sj : Snake} {c : Point}
    (hij : i ≠ j) (hSi : s[i]? = some Si) (hSj : s[j]? = some Sj)
    (hai : Si.alive = true) (haj : Sj.alive = true)
    (hhi : Si.body.head? = some c) (hhj : Sj.body.head? = some c) :
    ((collisionPass s)[i]?).map (·.alive) = some false ∧
    ((collisionPass s)[j]?).map (·.alive) = some false :=
  outer_fold_kills i j c (List.range s.length) s hij
    (List.mem_range.mpr (List.getElem?_eq_some.mp hSi).1)
    (Or.inr ⟨Si, Sj, hSi, hSj, hai, haj, hhi, hhj⟩)

end KillLemmas

section MovePhaseLemmas

theorem findFoodIdx_lt (p : Point) :
    ∀ (l : List Point) (i : Nat), findFoodIdx p l = some i → i < l.length := by
  intro l
  induction l with
  | nil =>
    intro i h
    cases h
  | cons f rest ih =>
    intro i h
    unfold findFoodIdx at h
    by_cases hc : (f.x == p.x && f.y == p.y) = true
    · rw [if_pos hc] at h
      cases h
      simp
    · rw [if_neg hc] at h
      rcases hmap : findFoodIdx p rest with _ | j
      · rw [hmap] at h
        cases h
      · rw [hmap] at h
        simp only [Option.map_some', Option.some.injEq] at h
        have hj := ih j hmap
        simp only [List.length_cons]
        omega

/-- Exhaustive description of the branches of `processSnake`. -/
theorem processSnake_cases {dirReq : Direction} {done todo : List Snake}
    {rand : Nat → Nat} {k : Nat} {snake : Snake} {foods : List Point}
    {sn' : Snake} {f' : List Point} {k' : Nat}
    (h : processSnake dirReq done todo rand k snake foods = some (sn', f', k')) :
    (snake.alive = false ∧ sn' = snake ∧ f' = foods ∧ k' = k) ∨
    (snake.alive = true ∧ snake.body = [] ∧
      sn' = { body := [],
              direction := acceptMove snake.direction dirReq,
              alive := false } ∧ f' = foods ∧ k' = k) ∨
    (∃ h0 t fi nf, snake.alive = true ∧ snake.body = h0 :: t ∧
      findFoodIdx (applyDir (acceptMove snake.direction dirReq) h0) foods = some fi ∧
      getNextFoodPosition (rand k) (done ++ movedSnake dirReq snake h0 t :: todo) =
        some nf ∧
      sn' = movedSnake dirReq snake h0 t ∧
      f' = foods.eraseIdx fi ++ [nf] ∧ k' = k + 1) ∨
    (∃ h0 t, snake.alive = true ∧ snake.body = h0 :: t ∧
      findFoodIdx (applyDir (acceptMove snake.direction dirReq) h0) foods = none ∧
      sn' = { movedSnake dirReq snake h0 t with
        body := (movedSnake dirReq snake h0 t).body.dropLast } ∧
      f' = foods ∧ k' = k) := by
  unfold processSnake at h
  by_cases ha : snake.alive = false
  · rw [if_pos ha] at h
    simp only [Option.some.injEq, Prod.mk.injEq] at h
    exact Or.inl ⟨ha, h.1.symm, h.2.1.symm, h.2.2.symm⟩
  · rw [if_neg ha] at h
    have ha' : snake.alive = true := by
      revert ha
      cases snake.alive <;> simp
    rcases hb : snake.body with _ | ⟨h0, t⟩
    · rw [hb] at h
      simp only [Option.some.injEq, Prod.mk.injEq] at h
      exact Or.inr (Or.inl ⟨ha', rfl, h.1.symm, h.2.1.symm, h.2.2.symm⟩)
    · rw [hb] at h
      simp only at h
      rcases hfi : findFoodIdx (applyDir (acceptMove snake.direction dirReq) h0) foods
        with _ | fi
      · rw [hfi] at h
        simp only [Option.some.injEq, Prod.mk.injEq] at h
        exact Or.inr (Or.inr (Or.inr ⟨h0, t, ha', rfl, hfi, h.1.symm, h.2.1.symm,
          h.2.2.symm⟩))
      · rw [hfi] at h
        simp only at h
        rcases hnf : getNextFoodPosition (rand k)
            (done ++ movedSnake dirReq snake h0 t :: todo) with _ | nf
        · rw [hnf] at h
          cases h
        · rw [hnf] at h
          simp only [Option.some.injEq, Prod.mk.injEq] at h
          exact Or.inr (Or.inr (Or.inl ⟨h0, t, fi, nf, ha', rfl, hfi, hnf, h.1.symm,
            h.2.1.symm, h.2.2.symm⟩))

theorem processSnake_dead {dirReq : Direction} {done todo : List Snake}
    {rand : Nat → Nat} {k : Nat} {snake : Snake} {foods : List Point}
    (ha : snake.alive = false) :
    processSnake dirReq done todo rand k snake foods = some (snake, foods, k) := by
  unfold processSnake
  rw [if_pos ha]

/-- The eat branch of `processSnake` with a failing food placement aborts. -/
theorem processSnake_eat_fail {dirReq : Direction} {done todo : List Snake}
    {rand : Nat → Nat} {k : Nat} {snake : Snake} {foods : List Point}
    {h0 : Point} {t : List Point} {fi : Nat}
    (ha : snake.alive = true) (hb : snake.body = h0 :: t)
    (hfi : findFoodIdx (applyDir (acceptMove snake.direction dirReq) h0) foods = some fi)
    (hfail : getNextFoodPosition (rand k)
      (done ++ movedSnake dirReq snake h0 t :: todo) = none) :
    processSnake dirReq done todo rand k snake foods = none := by
  have ha2 : ¬snake.alive = false := by
    rw [ha]
    simp
  unfold processSnake
  rw [if_neg ha2]
  simp only [hb, hfi, hfail]

theorem movePhase_nil (moves : Nat → Direction) (rand : Nat → Nat) (idx : Nat)
    (done : List Snake) (foods : List Point) (k : Nat) :
    movePhase moves rand idx done [] foods k = some (done, foods, k) := rfl

theorem movePhase_cons (moves : Nat → Direction) (rand : Nat → Nat) (idx : Nat)
    (done : List Snake) (snake : Snake) (todo : List Snake) (foods : List Point)
    (k : Nat) :
    movePhase moves rand idx done (snake :: todo) foods k =
      match processSnake (moves idx) done todo rand k snake foods with
      | none => none
      | some (sn, foods1, k1) =>
        movePhase moves rand (idx + 1) (done ++ [sn]) todo foods1 k1 := rfl

theorem movedSnake_valid {dirReq : Direction} {snake : Snake} {h0 : Point}
    {t : List Point}
    (hv : (isValidPosition (applyDir (acceptMove snake.direction dirReq) h0) &&
      ! isColliding (applyDir (acceptMove snake.direction dirReq) h0) (h0 :: t)) = true) :
    movedSnake dirReq snake h0 t =
      { body := applyDir (acceptMove snake.direction dirReq) h0 :: h0 :: t,
        direction := acceptMove snake.direction dirReq,
        alive := true } := by
  unfold movedSnake
  rw [hv]
  simp

theorem movedSnake_invalid {dirReq : Direction} {snake : Snake} {h0 : Point}
    {t : List Point}
    (hv : (isValidPosition (applyDir (acceptMove snake.direction dirReq) h0) &&
      ! isColliding (applyDir (acceptMove snake.direction dirReq) h0) (h0 :: t)) = false) :
    movedSnake dirReq snake h0 t =
      { body := h0 :: t,
        direction := acceptMove snake.direction dirReq,
        alive := false } := by
  unfold movedSnake
  rw [hv]
  simp

theorem movePhase_prefix {moves : Nat → Direction} {rand : Nat → Nat} :
    ∀ {todo : List Snake} {idx : Nat} {done : List Snake} {foods : List Point}
      {k : Nat} {res : List Snake} {f' : List Point} {k' : Nat},
      movePhase moves rand idx done todo foods k = some (res, f', k') →
      ∃ proc, res = done ++ proc ∧ proc.length = todo.length := by
  intro todo
  induction todo with
  | nil =>
    intro idx done foods k res f' k' h
    rw [movePhase_nil] at h
    simp only [Option.some.injEq, Prod.mk.injEq] at h
    exact ⟨[], by rw [← h.1]; simp, by simp⟩
  | cons snake todo ih =>
    intro idx done foods k res f' k' h
    rw [movePhase_cons] at h
    rcases hps : processSnake (moves idx) done todo rand k snake foods
      with _ | ⟨sn, f1, k1⟩
    · rw [hps] at h
      cases h
    · rw [hps] at h
      simp only at h
      obtain ⟨proc, hres, hlen⟩ := ih h
      refine ⟨sn :: proc, ?_, by simp [hlen]⟩
      rw [hres]
      simp

/-- A successful `movePhase` run reaches, just before processing the snake at
relative position `jr`, an intermediate configuration `(done1, f1, k1)`; the
snake is then processed by `processSnake` against the still-unmoved suffix
(`todo.drop (jr+1)`), and its result lands at the corresponding output
position. -/
theorem movePhase_step_at {moves : Nat → Direction} {rand : Nat → Nat} :
    ∀ (todo : List Snake) (jr : Nat) (hj : jr < todo.length) (idx : Nat)
      (done : List Snake) (foods : List Point) (k : Nat) (res : List Snake)
      (f' : List Point) (k' : Nat),
      movePhase moves rand idx done todo foods k = some (res, f', k') →
      ∃ done1 f1 k1 sn' f2 k2,
        done1.length = done.length + jr ∧
        (∃ proc, done1 = done ++ proc) ∧
        processSnake (moves (idx + jr)) done1 (todo.drop (jr + 1)) rand k1
          (todo.get ⟨jr, hj⟩) f1 = some (sn', f2, k2) ∧
        res[done.length + jr]? = some sn' ∧
        movePhase moves rand idx done todo foods k =
          movePhase moves rand (idx + jr) done1 (todo.drop jr) f1 k1 := by
  intro todo
  induction todo with
  | nil =>
    intro jr hj
    simp at hj
  | cons snake rest ih =>
    intro jr hj idx done foods k res f' k' h
    have hcons := movePhase_cons moves rand idx done snake rest foods k
    rw [hcons] at h
    rcases hps : processSnake (moves idx) done rest rand k snake foods
      with _ | ⟨sn, f1b, k1b⟩
    · rw [hps] at h
      cases h
    · rw [hps] at h
      simp only at h
      rcases jr with _ | jr'
      · refine ⟨done, foods, k, sn, f1b, k1b, by simp, ⟨[], by simp⟩, ?_, ?_, ?_⟩
        · simpa using hps
        · obtain ⟨proc, hres, _⟩ := movePhase_prefix h
          rw [hres]
          have : (done ++ [sn]) ++ proc = done ++ (sn :: proc) := by simp
          rw [this, Nat.add_zero, List.getElem?_append_right (Nat.le_refl _)]
          simp
        · simp
      · have hj' : jr' < rest.length := by
          simpa using Nat.lt_of_succ_lt_succ hj
        obtain ⟨done1, f1, k1, sn', f2, k2, hlen, ⟨proc1, hdone1⟩, hproc, hres, heq⟩ :=
          ih jr' hj' (idx + 1) (done ++ [sn]) f1b k1b res f' k' h
        refine ⟨done1, f1, k1, sn', f2, k2, ?_, ⟨sn :: proc1, by rw [hdone1]; simp⟩,
          ?_, ?_, ?_⟩
        · rw [hlen]
          simp
          omega
        · have harith : idx + 1 + jr' = idx + (jr' + 1) := by omega
          rw [← harith]
          exact hproc
        · have harith : done.length + (jr' + 1) = (done ++ [sn]).length + jr' := by
            simp
            omega
          rw [harith]
          exact hres
        · rw [hcons, hps]
          simp only
          rw [heq]
          have harith : idx + 1 + jr' = idx + (jr' + 1) := by omega
          rw [harith]
          rfl

/-- Variant of `movePhase_step_at` that pins the intermediate configuration
through the deterministic partial run `movePhaseCfg`. -/
theorem movePhase_cfg_at {moves : Nat → Direction} {rand : Nat → Nat} :
    ∀ (todo : List Snake) (jr : Nat) (hj : jr < todo.length) (idx : Nat)
      (done : List Snake) (foods : List Point) (k : Nat) (res : List Snake)
      (f' : List Point) (k' : Nat),
      movePhase moves rand idx done todo foods k = some (res, f', k') →
      ∃ done1 f1 k1 sn' f2 k2,
        movePhaseCfg moves rand idx done todo foods k jr = some (done1, f1, k1) ∧
        done1.length = done.length + jr ∧
        processSnake (moves (idx + jr)) done1 (todo.drop (jr + 1)) rand k1
          (todo.get ⟨jr, hj⟩) f1 = some (sn', f2, k2) ∧
        res[done.length + jr]? = some sn' := by
  intro todo
  induction todo with
  | nil =>
    intro jr hj
    simp at hj
  | cons snake rest ih =>
    intro jr hj idx done foods k res f' k' h
    have hcons := movePhase_cons moves rand idx done snake rest foods k
    rw [hcons] at h
    rcases hps : processSnake (moves idx) done rest rand k snake foods
      with _ | ⟨sn, f1b, k1b⟩
    · rw [hps] at h
      cases h
    · rw [hps] at h
      simp only at h
      rcases jr with _ | jr'
      · refine ⟨done, foods, k, sn, f1b, k1b, rfl, by simp, by simpa using hps, ?_⟩
        obtain ⟨proc, hres, _⟩ := movePhase_prefix h
        rw [hres]
        have hassoc : (done ++ [sn]) ++ proc = done ++ (sn :: proc) := by simp
        rw [hassoc, Nat.add_zero, List.getElem?_append_right (Nat.le_refl _)]
        simp
      · have hj' : jr' < rest.length := by
          simpa using Nat.lt_of_succ_lt_succ hj
        obtain ⟨done1, f1, k1, sn', f2, k2, hcfg, hlen, hproc, hres⟩ :=
          ih jr' hj' (idx + 1) (done ++ [sn]) f1b k1b res f' k' h
        refine ⟨done1, f1, k1, sn', f2, k2, ?_, ?_, ?_, ?_⟩
        · show (match processSnake (moves idx) done rest rand k snake foods with
            | none => none
            | some (sn, f1, k1) =>
              movePhaseCfg moves rand (idx + 1) (done ++ [sn]) rest f1 k1 jr') =
              some (done1, f1, k1)
          rw [hps]
          exact hcfg
        · rw [hlen]
          simp
          omega
        · have harith : idx + 1 + jr' = idx + (jr' + 1) := by omega
          rw [← harith]
          exact hproc
        · have harith : done.length + (jr' + 1) = (done ++ [sn]).length + jr' := by
            simp
            omega
          rw [harith]
          exact hres

theorem step_elim {moves : Nat → Direction} {rand : Nat → Nat} {s : GameState}
    {s' : GameState} (h : step moves rand s = some s') :
    ∃ snakes1 foods1 k1,
      movePhase moves rand 0 [] s.snakes s.foods 0 = some (snakes1, foods1, k1) ∧
      s' = { snakes := collisionPass snakes1,
             foods := foods1,
             steps := s.steps + 1 } := by
  unfold step at h
  rcases hmp : movePhase moves rand 0 [] s.snakes s.foods 0
    with _ | ⟨snakes1, foods1, k1⟩
  · rw [hmp] at h
    cases h
  · rw [hmp] at h
    simp only [Option.some.injEq] at h
    exact ⟨snakes1, foods1, k1, rfl, h.symm⟩

/-- Per-index description of a successful `step`: the snake at index `i` was
processed by `processSnake` at some intermediate configuration, and its result
is what the collision pass then sees. -/
theorem step_get {moves : Nat → Direction} {rand : Nat → Nat} {s : GameState}
    {s' : GameState} (h : step moves rand s = some s') {i : Nat}
    (hi : i < s.snakes.length) :
    ∃ snakes1 foods1 k1 done1 f1 k2 sn' f2 k3,
      movePhase moves rand 0 [] s.snakes s.foods 0 = some (snakes1, foods1, k1) ∧
      s' = { snakes := collisionPass snakes1,
             foods := foods1,
             steps := s.steps + 1 } ∧
      done1.length = i ∧
      processSnake (moves i) done1 (s.snakes.drop (i + 1)) rand k2
        (s.snakes.get ⟨i, hi⟩) f1 = some (sn', f2, k3) ∧
      snakes1[i]? = some sn' := by
  obtain ⟨snakes1, foods1, k1, hmp, hs'⟩ := step_elim h
  obtain ⟨done1, f1, k2, sn', f2, k3, hlen, _, hproc, hres, _⟩ :=
    movePhase_step_at s.snakes i hi 0 [] s.foods 0 snakes1 foods1 k1 hmp
  refine ⟨snakes1, foods1, k1, done1, f1, k2, sn', f2, k3, hmp, hs', by simpa using hlen,
    ?_, by simpa using hres⟩
  simpa using hproc

end MovePhaseLemmas

section FoodClaims

/-- A placed food is a board cell unoccupied with respect to the snake list
passed to `getNextFoodPosition`. -/
theorem getNextFoodPosition_some (r : Nat) (snakes : List Snake) (p : Point)
    (h : getNextFoodPosition r snakes = some p) :
    p ∈ boardCells ∧ isOccupied snakes p = false := by
  unfold getNextFoodPosition at h
  have hmem : p ∈ availablePositions snakes := List.getElem?_mem h
  have := List.mem_filter.mp hmem
  refine ⟨this.1, ?_⟩
  have h2 := this.2
  simp only [Bool.not_eq_true'] at h2
  exact h2

/-- Lemma: `getNextFoodPosition` fails exactly when no board cell is free. -/
theorem getNextFoodPosition_none_iff (r : Nat) (snakes : List Snake) :
    getNextFoodPosition r snakes = none ↔
      ∀ p ∈ boardCells, isOccupied snakes p = true := by
  unfold getNextFoodPosition
  constructor
  · intro h
    have hlen : (availablePositions snakes).length ≤ r % (availablePositions snakes).length :=
      List.getElem?_eq_none_iff.mp h
    have hnil : availablePositions snakes = [] := by
      rcases hcase : availablePositions snakes with _ | ⟨a, l⟩
      · rfl
      · rw [hcase] at hlen
        have : r % (a :: l).length < (a :: l).length := Nat.mod_lt _ (by simp)
        omega
    intro p hp
    have := List.filter_eq_nil_iff.mp hnil p hp
    simpa using this
  · intro h
    have hnil : availablePositions snakes = [] := by
      apply List.filter_eq_nil_iff.mpr
      intro p hp
      simp [h p hp]
    rw [hnil]
    rfl

/-- C7: `getNextFoodPosition` throws (modelled `none`) if and only if every
board cell is occupied by some snake-body cell; otherwise it returns an
unoccupied board cell; and the failure propagates out of `step` as a fatal
error (the whole tick returns `none`, no retry). -/
theorem foodPlacement_fatal_iff_boardFull :
    (∀ (r : Nat) (snakes : List Snake),
      getNextFoodPosition r snakes = none ↔
        ∀ p ∈ boardCells, isOccupied snakes p = true) ∧
    (∀ (r : Nat) (snakes : List Snake) (p : Point),
      getNextFoodPosition r snakes = some p →
        p ∈ boardCells ∧ isOccupied snakes p = false) ∧
    (∀ (moves : Nat → Direction) (rand : Nat → Nat) (s : GameState),
      movePhase moves rand 0 [] s.snakes s.foods 0 = none →
        step moves rand s = none) := by
  refine ⟨getNextFoodPosition_none_iff, getNextFoodPosition_some,
    fun moves rand s h => ?_⟩
  unfold step
  rw [h]

end FoodClaims

section StepClaims

theorem get_of_getElem? {l : List Snake} {i : Nat} {x : Snake}
    (h : l[i]? = some x) (hi : i < l.length) : l.get ⟨i, hi⟩ = x := by
  obtain ⟨_, hv⟩ := List.getElem?_eq_some.mp h
  simpa using hv

theorem getElem?_of_lt {l : List Snake} {i : Nat} (hi : i < l.length) :
    l[i]? = some (l.get ⟨i, hi⟩) := by
  simp [List.getElem?_eq_some_getElem_iff]

theorem shadow_bodyLen_eq {s0 s : List Snake} (h : Shadow s0 s) (k : Nat) :
    (s[k]?).map (·.body.length) = (s0[k]?).map (·.body.length) := by
  rcases h k with hk | hk
  · rw [hk]
  · rw [hk]
    rcases s0[k]? with _ | x <;> simp [killSnake]

/-- C5: a snake that is dead at the start of a tick is left entirely
unchanged by `step` (frozen in place), and no snake ever returns from dead to
alive: any snake alive after `step` was alive before it. -/
theorem deadSnake_frozen :
    (∀ (moves : Nat → Direction) (rand : Nat → Nat) (s s' : GameState) (i : Nat)
        (sn : Snake), step moves rand s = some s' → s.snakes[i]? = some sn →
        sn.alive = false → s'.snakes[i]? = some sn) ∧
    (∀ (moves : Nat → Direction) (rand : Nat → Nat) (s s' : GameState) (i : Nat),
        step moves rand s = some s' →
        (s'.snakes[i]?).map (·.alive) = some true →
        (s.snakes[i]?).map (·.alive) = some true) := by
  constructor
  · intro moves rand s s' i sn hstep hsn hdead
    have hi : i < s.snakes.length := (List.getElem?_eq_some.mp hsn).1
    obtain ⟨snakes1, foods1, k1, done1, f1, k2, sn', f2, k3, hmp, hs', hlen,
      hproc, hres⟩ := step_get hstep hi
    have hget : s.snakes.get ⟨i, hi⟩ = sn := get_of_getElem? hsn hi
    rw [hget] at hproc
    rcases processSnake_cases hproc with ⟨_, h1, _, _⟩ | ⟨ha, _⟩ |
        ⟨h0, t, fi, nf, ha, _⟩ | ⟨h0, t, ha, _⟩
    · rw [h1] at hres
      have hfrozen := shadow_dead_frozen (collisionPass_shadow snakes1) hres hdead
      rw [hs']
      exact hfrozen
    · rw [hdead] at ha
      cases ha
    · rw [hdead] at ha
      cases ha
    · rw [hdead] at ha
      cases ha
  · intro moves rand s s' i hstep halive
    obtain ⟨snakes1, foods1, k1, hmp, hs'⟩ := step_elim hstep
    have halive' : ((collisionPass snakes1)[i]?).map (·.alive) = some true := by
      rw [hs'] at halive
      exact halive
    have h1 := shadow_alive_mono (collisionPass_shadow snakes1) i halive'
    have hi1 : i < snakes1.length := by
      rcases ho : snakes1[i]? with _ | x
      · rw [ho] at h1
        cases h1
      · exact (List.getElem?_eq_some.mp ho).1
    have hilen : i < s.snakes.length := by
      obtain ⟨proc, hp, hl⟩ := movePhase_prefix hmp
      have : snakes1.length = s.snakes.length := by
        rw [hp]
        simpa using hl
      omega
    obtain ⟨done1, f1, k2, sn', f2, k3, hlen, _, hproc, hres, _⟩ :=
      movePhase_step_at s.snakes i hilen 0 [] s.foods 0 snakes1 foods1 k1 hmp
    have hres' : snakes1[i]? = some sn' := by simpa using hres
    rw [hres'] at h1
    simp only [Option.map_some'] at h1
    have hsa : sn'.alive = true := by simpa using h1
    rcases processSnake_cases hproc with ⟨hdead, he, _, _⟩ | ⟨_, _, he, _⟩ |
        ⟨h0, t, fi, nf, ha, _⟩ | ⟨h0, t, ha, _⟩
    · rw [he] at hsa
      rw [hsa] at hdead
      cases hdead
    · rw [he] at hsa
      cases hsa
    · rw [getElem?_of_lt hilen, Option.map_some', ha]
    · rw [getElem?_of_lt hilen, Option.map_some', ha]

/-- C1 counterexample: at `c1state` the only snake starts with body length 3,
hits the wall, and `step` still pops its tail, leaving body length 2 — the
length of a snake is not non-decreasing. -/
theorem snakeLength_counterexample :
    ((step (fun _ => Direction.up) (fun _ => 0) c1state).map
      (fun t => (t.snakes[0]?).map (·.body.length))) = some (some 2) ∧
    (c1state.snakes[0]?).map (·.body.length) = some 3 := by
  constructor
  · decide
  · decide

/-- C1 (amended): over one `step`, a snake dead at tick start keeps its body
length; an alive snake with an empty body ends with length 0; an alive snake
with body `h0 :: t` (length `t.length + 1`) ends with length `t.length + 2`
when its accepted new head is valid (in bounds, not self-colliding) and on a
food cell of the food list current at its turn, `t.length + 1` when the head
is valid and not on food, `t.length + 1` when the head is invalid (the snake
dies) but coincides with a food cell, and `t.length` when the head is invalid
and not on food — a dying snake loses its tail cell, so the claimed
non-decrease fails exactly there. -/
theorem snakeLength_characterization :
    ∀ (moves : Nat → Direction) (rand : Nat → Nat) (s s' : GameState) (i : Nat)
      (hi : i < s.snakes.length) (done1 : List Snake) (f1 : List Point) (k1 : Nat),
      step moves rand s = some s' →
      movePhaseCfg moves rand 0 [] s.snakes s.foods 0 i = some (done1, f1, k1) →
      (((s.snakes.get ⟨i, hi⟩).alive = false →
        (s'.snakes[i]?).map (·.body.length) =
          some (s.snakes.get ⟨i, hi⟩).body.length) ∧
       ((s.snakes.get ⟨i, hi⟩).alive = true → (s.snakes.get ⟨i, hi⟩).body = [] →
        (s'.snakes[i]?).map (·.body.length) = some 0) ∧
       (∀ (h0 : Point) (t : List Point), (s.snakes.get ⟨i, hi⟩).alive = true →
        (s.snakes.get ⟨i, hi⟩).body = h0 :: t →
        (s'.snakes[i]?).map (·.body.length) = some (
          if (isValidPosition
                (applyDir (acceptMove (s.snakes.get ⟨i, hi⟩).direction (moves i)) h0) &&
              ! isColliding
                (applyDir (acceptMove (s.snakes.get ⟨i, hi⟩).direction (moves i)) h0)
                (h0 :: t)) = true then
            (if (findFoodIdx
                (applyDir (acceptMove (s.snakes.get ⟨i, hi⟩).direction (moves i)) h0)
                f1).isSome = true
             then t.length + 2 else t.length + 1)
          else
            (if (findFoodIdx
                (applyDir (acceptMove (s.snakes.get ⟨i, hi⟩).direction (moves i)) h0)
                f1).isSome = true
             then t.length + 1 else t.length)))) := by
  intro moves rand s s' i hi done1 f1 k1 hstep hcfg
  obtain ⟨snakes1, foods1, kfin, hmp, hs'⟩ := step_elim hstep
  obtain ⟨done1', f1', k1', sn', f2, k2, hcfg', hlen, hproc, hres⟩ :=
    movePhase_cfg_at s.snakes i hi 0 [] s.foods 0 snakes1 foods1 kfin hmp
  rw [hcfg] at hcfg'
  simp only [Option.some.injEq, Prod.mk.injEq] at hcfg'
  obtain ⟨hd1, hf1, hk1⟩ := hcfg'
  subst hd1
  subst hf1
  simp only [Nat.zero_add] at hproc
  have hres' : snakes1[i]? = some sn' := by simpa using hres
  have hgoal : (s'.snakes[i]?).map (·.body.length) = some sn'.body.length := by
    have hbody := shadow_bodyLen_eq (collisionPass_shadow snakes1) i
    have hs'snakes : s'.snakes = collisionPass snakes1 := by rw [hs']
    rw [hs'snakes, hbody, hres']
    rfl
  refine ⟨?_, ?_, ?_⟩
  · intro hdead
    rcases processSnake_cases hproc with ⟨_, he, _, _⟩ | ⟨ha, _⟩ |
        ⟨h0', t', fi, nf, ha, _⟩ | ⟨h0', t', ha, _⟩
    · rw [hgoal, he]
    · rw [hdead] at ha
      cases ha
    · rw [hdead] at ha
      cases ha
    · rw [hdead] at ha
      cases ha
  · intro halive hempty
    rcases processSnake_cases hproc with ⟨hdead, _, _, _⟩ | ⟨_, _, he, _⟩ |
        ⟨h0', t', fi, nf, _, hb, _⟩ | ⟨h0', t', _, hb, _⟩
    · rw [halive] at hdead
      cases hdead
    · rw [hgoal, he]
      rfl
    · rw [hempty] at hb
      cases hb
    · rw [hempty] at hb
      cases hb
  · intro h0 t halive hbody0
    rcases processSnake_cases hproc with ⟨hdead, _, _, _⟩ | ⟨_, hb, _, _⟩ |
        ⟨h0', t', fi, nf, _, hb, hfi, _, he, _, _⟩ | ⟨h0', t', _, hb, hfi, he, _, _⟩
    · rw [halive] at hdead
      cases hdead
    · rw [hbody0] at hb
      cases hb
    · rw [hbody0] at hb
      injection hb with hbh hbt
      subst hbh
      subst hbt
      rw [hgoal, he, hfi]
      rcases hv : (isValidPosition
          (applyDir (acceptMove (s.snakes.get ⟨i, hi⟩).direction (moves i)) h0) &&
          ! isColliding
            (applyDir (acceptMove (s.snakes.get ⟨i, hi⟩).direction (moves i)) h0)
            (h0 :: t)) with _ | _
      · rw [movedSnake_invalid hv]
        simp
      · rw [movedSnake_valid hv]
        simp
    · rw [hbody0] at hb
      injection hb with hbh hbt
      subst hbh
      subst hbt
      rw [hgoal, he, hfi]
      rcases hv : (isValidPosition
          (applyDir (acceptMove (s.snakes.get ⟨i, hi⟩).direction (moves i)) h0) &&
          ! isColliding
            (applyDir (acceptMove (s.snakes.get ⟨i, hi⟩).direction (moves i)) h0)
            (h0 :: t)) with _ | _
      · rw [movedSnake_invalid hv]
        simp
      · rw [movedSnake_valid hv]
        simp

/-- Witness for C1 (amended) at `c1wit`: the snake eats the food ahead and
grows from length 2 to length 3. -/
theorem snakeLength_characterization_witness :
    (c1witResult.snakes[0]?).map (·.body.length) = some 3 := by
  have h := (snakeLength_characterization (fun _ => Direction.right) (fun _ => 3)
    c1wit c1witResult 0 (by decide) [] [⟨6, 5⟩] 0 (by decide) (by decide)).2.2
    ⟨5, 5⟩ [⟨4, 5⟩] (by decide) (by decide)
  simpa using h

theorem acceptMove_opposite (d : Direction) : acceptMove d (oppositeDir d) = d := by
  cases d <;> rfl

theorem ne_oppositeDir (d : Direction) : d ≠ oppositeDir d := by
  cases d <;> simp [oppositeDir]

/-- C2: when the agent-returned heading is the exact reversal of the snake's
current heading `d`, the step function keeps `d` (never the request), and the
computed new head is the old head advanced one cell along `d`; in particular,
the surviving snake's head after the tick is `applyDir d h0`. -/
theorem reversal_rejected :
    ∀ (moves : Nat → Direction) (rand : Nat → Nat) (s s' : GameState) (i : Nat)
      (hi : i < s.snakes.length),
      step moves rand s = some s' →
      (s.snakes.get ⟨i, hi⟩).alive = true →
      moves i = oppositeDir (s.snakes.get ⟨i, hi⟩).direction →
      ((s'.snakes[i]?).map (·.direction) = some (s.snakes.get ⟨i, hi⟩).direction ∧
       (s.snakes.get ⟨i, hi⟩).direction ≠ moves i ∧
       (∀ (h0 : Point) (t : List Point), (s.snakes.get ⟨i, hi⟩).body = h0 :: t →
         isValidPosition (applyDir (s.snakes.get ⟨i, hi⟩).direction h0) = true →
         isColliding (applyDir (s.snakes.get ⟨i, hi⟩).direction h0) (h0 :: t) = false →
         ((s'.snakes[i]?).bind (·.body.head?)) =
           some (applyDir (s.snakes.get ⟨i, hi⟩).direction h0))) := by
  intro moves rand s s' i hi hstep halive hrev
  obtain ⟨snakes1, foods1, k1, done1, f1, k2, sn', f2, k3, hmp, hs', hlen, hproc,
    hres⟩ := step_get hstep hi
  have haccept : acceptMove (s.snakes.get ⟨i, hi⟩).direction (moves i) =
      (s.snakes.get ⟨i, hi⟩).direction := by
    rw [hrev]
    exact acceptMove_opposite _
  have hdir : sn'.direction = (s.snakes.get ⟨i, hi⟩).direction := by
    rcases processSnake_cases hproc with ⟨hdead, _, _, _⟩ | ⟨_, _, he, _⟩ |
        ⟨h0', t', fi, nf, _, _, _, _, he, _, _⟩ | ⟨h0', t', _, _, _, he, _, _⟩
    · rw [halive] at hdead
      cases hdead
    · rw [he]
      exact haccept
    · rw [he]
      simp only [movedSnake]
      exact haccept
    · rw [he]
      simp only [movedSnake]
      exact haccept
  have hs'snakes : s'.snakes = collisionPass snakes1 := by rw [hs']
  refine ⟨?_, ?_, ?_⟩
  · rw [hs'snakes, shadow_direction_eq (collisionPass_shadow snakes1) i, hres,
      Option.map_some', hdir]
  · rw [hrev]
    exact ne_oppositeDir _
  · intro h0 t hbody0 hpos hnocoll
    have hvalid : (isValidPosition
        (applyDir (acceptMove (s.snakes.get ⟨i, hi⟩).direction (moves i)) h0) &&
        ! isColliding
          (applyDir (acceptMove (s.snakes.get ⟨i, hi⟩).direction (moves i)) h0)
          (h0 :: t)) = true := by
      rw [haccept, hpos, hnocoll]
      rfl
    have hhead : sn'.body.head? =
        some (applyDir (s.snakes.get ⟨i, hi⟩).direction h0) := by
      rcases processSnake_cases hproc with ⟨hdead, _, _, _⟩ | ⟨_, hb, _, _⟩ |
          ⟨h0', t', fi, nf, _, hb, _, _, he, _, _⟩ | ⟨h0', t', _, hb, _, he, _, _⟩
      · rw [halive] at hdead
        cases hdead
      · rw [hbody0] at hb
        cases hb
      · rw [hbody0] at hb
        injection hb with hbh hbt
        subst hbh
        subst hbt
        rw [he, movedSnake_valid hvalid]
        rw [haccept]
        rfl
      · rw [hbody0] at hb
        injection hb with hbh hbt
        subst hbh
        subst hbt
        rw [he, movedSnake_valid hvalid]
        rw [haccept]
        rfl
    have hbody := shadow_body_eq (collisionPass_shadow snakes1) i
    rw [hs'snakes]
    rw [hres] at hbody
    simp only [Option.map_some'] at hbody
    obtain ⟨x, hx, hxb⟩ := Option.map_eq_some'.mp hbody
    rw [hx]
    show x.body.head? = some (applyDir (s.snakes.get ⟨i, hi⟩).direction h0)
    rw [hxb, hhead]

/-- Witness for C2 at `c2state`: heading `right`, agent requests `left`; the
snake keeps heading `right` and its next head is one cell to the right. -/
theorem reversal_rejected_witness :
    (c2result.snakes[0]?).map (·.direction) = some Direction.right ∧
    ((c2result.snakes[0]?).bind (·.body.head?)) = some (⟨6, 5⟩ : Point) := by
  have h := reversal_rejected (fun _ => Direction.left) (fun _ => 0) c2state c2result 0
    (by decide) (by decide) (by decide) (by decide)
  exact ⟨h.1, h.2.2 ⟨5, 5⟩ [⟨4, 5⟩] (by decide) (by decide) (by decide)⟩

/-- C4: if two snakes alive at tick start move their heads into the same
in-bounds cell that no snake-body cell of the pre-move state occupies, then
after the tick's collision pass both snakes are dead. -/
theorem headOn_bothDie :
    ∀ (moves : Nat → Direction) (rand : Nat → Nat) (s s' : GameState) (i j : Nat)
      (hi : i < s.snakes.length) (hj : j < s.snakes.length) (h0i h0j : Point)
      (ti tj : List Point),
      step moves rand s = some s' → i ≠ j →
      (s.snakes.get ⟨i, hi⟩).alive = true →
      (s.snakes.get ⟨j, hj⟩).alive = true →
      (s.snakes.get ⟨i, hi⟩).body = h0i :: ti →
      (s.snakes.get ⟨j, hj⟩).body = h0j :: tj →
      applyDir (acceptMove (s.snakes.get ⟨i, hi⟩).direction (moves i)) h0i =
        applyDir (acceptMove (s.snakes.get ⟨j, hj⟩).direction (moves j)) h0j →
      isValidPosition
        (applyDir (acceptMove (s.snakes.get ⟨i, hi⟩).direction (moves i)) h0i) = true →
      isOccupied s.snakes
        (applyDir (acceptMove (s.snakes.get ⟨i, hi⟩).direction (moves i)) h0i) = false →
      ((s'.snakes[i]?).map (·.alive) = some false ∧
       (s'.snakes[j]?).map (·.alive) = some false) := by
  intro moves rand s s' i j hi hj h0i h0j ti tj hstep hij haliveI haliveJ hbodyI
    hbodyJ hcc hpos hempty
  obtain ⟨snakes1, foods1, kfin, hmp, hs'⟩ := step_elim hstep
  obtain ⟨d1i, f1i, k1i, sni, f2i, k2i, _, _, hprocI, hresI⟩ :=
    movePhase_cfg_at s.snakes i hi 0 [] s.foods 0 snakes1 foods1 kfin hmp
  obtain ⟨d1j, f1j, k1j, snj, f2j, k2j, _, _, hprocJ, hresJ⟩ :=
    movePhase_cfg_at s.snakes j hj 0 [] s.foods 0 snakes1 foods1 kfin hmp
  simp only [Nat.zero_add] at hprocI hprocJ
  have hresI' : snakes1[i]? = some sni := by simpa using hresI
  have hresJ' : snakes1[j]? = some snj := by simpa using hresJ
  have hcollAll : ∀ (k : Nat) (hk : k < s.snakes.length),
      isColliding
        (applyDir (acceptMove (s.snakes.get ⟨i, hi⟩).direction (moves i)) h0i)
        (s.snakes.get ⟨k, hk⟩).body = false := by
    intro k hk
    have hmem : s.snakes.get ⟨k, hk⟩ ∈ s.snakes := List.get_mem s.snakes k hk
    have hocc := hempty
    unfold isOccupied at hocc
    rw [List.any_eq_false] at hocc
    have := hocc _ hmem
    unfold isColliding
    revert this
    cases ((s.snakes.get ⟨k, hk⟩).body.any fun seg =>
      seg.x == (applyDir (acceptMove (s.snakes.get ⟨i, hi⟩).direction (moves i)) h0i).x &&
      seg.y == (applyDir (acceptMove (s.snakes.get ⟨i, hi⟩).direction (moves i)) h0i).y) <;>
      simp
  have hvalidI : (isValidPosition
      (applyDir (acceptMove (s.snakes.get ⟨i, hi⟩).direction (moves i)) h0i) &&
      ! isColliding
        (applyDir (acceptMove (s.snakes.get ⟨i, hi⟩).direction (moves i)) h0i)
        (h0i :: ti)) = true := by
    have hcoll := hcollAll i hi
    rw [hbodyI] at hcoll
    rw [hpos, hcoll]
    rfl
  have hvalidJ : (isValidPosition
      (applyDir (acceptMove (s.snakes.get ⟨j, hj⟩).direction (moves j)) h0j) &&
      ! isColliding
        (applyDir (acceptMove (s.snakes.get ⟨j, hj⟩).direction (moves j)) h0j)
        (h0j :: tj)) = true := by
    have hcoll := hcollAll j hj
    rw [hbodyJ, hcc] at hcoll
    have hposJ : isValidPosition
        (applyDir (acceptMove (s.snakes.get ⟨j, hj⟩).direction (moves j)) h0j) = true := by
      rw [← hcc]
      exact hpos
    rw [hposJ, hcoll]
    rfl
  have hsnI : sni.alive = true ∧ sni.body.head? =
      some (applyDir (acceptMove (s.snakes.get ⟨i, hi⟩).direction (moves i)) h0i) := by
    rcases processSnake_cases hprocI with ⟨hdead, _, _, _⟩ | ⟨_, hb, _, _⟩ |
        ⟨h0', t', fi, nf, _, hb, _, _, he, _, _⟩ | ⟨h0', t', _, hb, _, he, _, _⟩
    · rw [haliveI] at hdead
      cases hdead
    · rw [hbodyI] at hb
      cases hb
    · rw [hbodyI] at hb
      injection hb with hbh hbt
      subst hbh
      subst hbt
      rw [he, movedSnake_valid hvalidI]
      exact ⟨rfl, rfl⟩
    · rw [hbodyI] at hb
      injection hb with hbh hbt
      subst hbh
      subst hbt
      rw [he, movedSnake_valid hvalidI]
      exact ⟨rfl, rfl⟩
  have hsnJ : snj.alive = true ∧ snj.body.head? =
      some (applyDir (acceptMove (s.snakes.get ⟨j, hj⟩).direction (moves j)) h0j) := by
    rcases processSnake_cases hprocJ with ⟨hdead, _, _, _⟩ | ⟨_, hb, _, _⟩ |
        ⟨h0', t', fi, nf, _, hb, _, _, he, _, _⟩ | ⟨h0', t', _, hb, _, he, _, _⟩
    · rw [haliveJ] at hdead
      cases hdead
    · rw [hbodyJ] at hb
      cases hb
    · rw [hbodyJ] at hb
      injection hb with hbh hbt
      subst hbh
      subst hbt
      rw [he, movedSnake_valid hvalidJ]
      exact ⟨rfl, rfl⟩
    · rw [hbodyJ] at hb
      injection hb with hbh hbt
      subst hbh
      subst hbt
      rw [he, movedSnake_valid hvalidJ]
      exact ⟨rfl, rfl⟩
  have hheadJ : snj.body.head? =
      some (applyDir (acceptMove (s.snakes.get ⟨i, hi⟩).direction (moves i)) h0i) := by
    rw [hsnJ.2, hcc]
  obtain ⟨hkI, hkJ⟩ := collisionPass_kills hij hresI' hresJ' hsnI.1 hsnJ.1
    hsnI.2 hheadJ
  have hs'snakes : s'.snakes = collisionPass snakes1 := by rw [hs']
  rw [hs'snakes]
  exact ⟨hkI, hkJ⟩

/-- Witness for C4 at `c4state`: both snakes move into `(5,5)` and both are
dead afterwards. -/
theorem headOn_bothDie_witness :
    (c4result.snakes[0]?).map (·.alive) = some false ∧
    (c4result.snakes[1]?).map (·.alive) = some false := by
  have h := headOn_bothDie (fun i => if i = 0 then Direction.right else Direction.left)
    (fun _ => 0) c4state c4result 0 1 (by decide) (by decide) ⟨4, 5⟩ ⟨6, 5⟩
    [⟨3, 5⟩] [⟨7, 5⟩] (by decide) (by decide) (by decide) (by decide) (by decide)
    (by decide) (by decide) (by decide) (by decide)
  exact h

/-- Witness for C5 at `c5state`: the dead snake is unchanged by the tick and
the snake alive afterwards was alive before. -/
theorem deadSnake_frozen_witness :
    c5result.snakes[0]? =
      some ({ body := [⟨3, 3⟩], direction := .up, alive := false } : Snake) ∧
    (c5state.snakes[1]?).map (·.alive) = some true := by
  refine ⟨deadSnake_frozen.1 (fun _ => Direction.up) (fun _ => 0) c5state c5result 0
      { body := [⟨3, 3⟩], direction := .up, alive := false } (by decide) (by decide)
      (by decide),
    deadSnake_frozen.2 (fun _ => Direction.up) (fun _ => 0) c5state c5result 1
      (by decide) (by decide)⟩

theorem stepWithOld_elim {moves : Nat → Direction} {rand : Nat → Nat}
    {s s' old : GameState} (h : stepWithOld moves rand s = some (s', old)) :
    ∃ snakes1 foods1 k1,
      movePhase moves rand 0 [] s.snakes s.foods 0 = some (snakes1, foods1, k1) ∧
      s' = { snakes := collisionPass snakes1,
             foods := foods1,
             steps := s.steps + 1 } ∧
      old = { snakes := List.zipWith
                (fun o n => if o.alive then { o with body := n.body } else o)
                s.snakes snakes1,
              foods := s.foods,
              steps := s.steps } := by
  unfold stepWithOld at h
  rcases hmp : movePhase moves rand 0 [] s.snakes s.foods 0
    with _ | ⟨snakes1, foods1, k1⟩
  · rw [hmp] at h
    cases h
  · rw [hmp] at h
    simp only [Option.some.injEq, Prod.mk.injEq] at h
    exact ⟨snakes1, foods1, k1, rfl, h.1.symm, h.2.symm⟩

/-- C6 counterexample: `step` on `c6state` mutates the previous state in
place — after the tick the old state's body array holds the post-move body,
so the old state is observably different from what it was. -/
theorem stepMutatesPrev_counterexample :
    (stepWithOld (fun _ => Direction.up) (fun _ => 0) c6state).map (·.2) =
      some c6old ∧
    c6old ≠ c6state := by
  constructor
  · decide
  · decide

/-- C6 (amended): `step` returns a freshly built `GameState` and leaves the
previous state's food list, step counter and every snake's `direction` and
`alive` flag unchanged, and dead snakes entirely unchanged — but because
`{ ...snake }` is a shallow copy, each alive snake's body array is mutated in
place, so after the call the previous state's bodies coincide with the new
state's bodies rather than with the pre-tick ones. -/
theorem zipAux_direction (o n : Snake) :
    (if o.alive then { o with body := n.body } else o).direction = o.direction := by
  by_cases h : o.alive <;> simp [h]

theorem zipAux_alive (o n : Snake) :
    (if o.alive then { o with body := n.body } else o).alive = o.alive := by
  by_cases h : o.alive <;> simp [h]

theorem zipAux_body (o n : Snake) (h : o.body = n.body ∨ o.alive = true) :
    (if o.alive then { o with body := n.body } else o).body = n.body := by
  by_cases ha : o.alive
  · simp [ha]
  · rcases h with h | h
    · simp [ha, h]
    · exact absurd h ha
 
theorem zipAux_dead (o n : Snake) (h : o.alive = false) :
    (if o.alive then { o with body := n.body } else o) = o := by
  simp [h]

theorem stepMutatesPrev :
    ∀ (moves : Nat → Direction) (rand : Nat → Nat) (s s' old : GameState),
      stepWithOld moves rand s = some (s', old) →
      (old.foods = s.foods ∧
       old.steps = s.steps ∧
       step moves rand s = some s' ∧
       old.snakes.length = s.snakes.length ∧
       (∀ i : Nat, (old.snakes[i]?).map (·.direction) =
         (s.snakes[i]?).map (·.direction)) ∧
       (∀ i : Nat, (old.snakes[i]?).map (·.alive) = (s.snakes[i]?).map (·.alive)) ∧
       (∀ i : Nat, (old.snakes[i]?).map (·.body) = (s'.snakes[i]?).map (·.body)) ∧
       (∀ (i : Nat) (sn : Snake), s.snakes[i]? = some sn → sn.alive = false →
         old.snakes[i]? = some sn)) := by
  intro moves rand s s' old h
  obtain ⟨snakes1, foods1, k1, hmp, hs', hold⟩ := stepWithOld_elim h
  have hlen1 : snakes1.length = s.snakes.length := by
    obtain ⟨proc, hp, hl⟩ := movePhase_prefix hmp
    rw [hp]
    simpa using hl
  have holdsnakes : old.snakes = List.zipWith
      (fun o n => if o.alive then { o with body := n.body } else o)
      s.snakes snakes1 := by rw [hold]
  have hzip : ∀ i : Nat, old.snakes[i]? =
      ((s.snakes[i]?).map
        (fun o n => if o.alive then { o with body := n.body } else o)).bind
        fun g => (snakes1[i]?).map g := by
    intro i
    rw [holdsnakes]
    exact List.getElem?_zipWith'
  have hstep : step moves rand s = some s' := by
    unfold step
    rw [hmp, hs']
  have hbodyrel : ∀ (i : Nat) (hi : i < s.snakes.length),
      ∃ sn', snakes1[i]? = some sn' ∧
        ((s.snakes.get ⟨i, hi⟩).alive = false → sn' = s.snakes.get ⟨i, hi⟩) := by
    intro i hi
    obtain ⟨d1, f1, k2, sn', f2, k3, _, _, hproc, hres⟩ :=
      movePhase_cfg_at s.snakes i hi 0 [] s.foods 0 snakes1 foods1 k1 hmp
    refine ⟨sn', by simpa using hres, ?_⟩
    intro hdead
    rcases processSnake_cases hproc with ⟨_, he, _, _⟩ | ⟨ha, _⟩ |
        ⟨h0', t', fi, nf, ha, _⟩ | ⟨h0', t', ha, _⟩
    · exact he
    · rw [hdead] at ha
      cases ha
    · rw [hdead] at ha
      cases ha
    · rw [hdead] at ha
      cases ha
  refine ⟨by rw [hold], by rw [hold], hstep, ?_, ?_, ?_, ?_, ?_⟩
  · rw [holdsnakes, List.length_zipWith, hlen1]
    simp
  · intro i
    by_cases hi : i < s.snakes.length
    · have hi1 : i < snakes1.length := by omega
      rw [hzip i, getElem?_of_lt hi, getElem?_of_lt hi1]
      simp only [Option.map_some', Option.some_bind]
      rw [zipAux_direction]
    · have hge : s.snakes.length ≤ i := Nat.le_of_not_lt hi
      rw [hzip i, List.getElem?_eq_none_iff.mpr hge]
      simp
  · intro i
    by_cases hi : i < s.snakes.length
    · have hi1 : i < snakes1.length := by omega
      rw [hzip i, getElem?_of_lt hi, getElem?_of_lt hi1]
      simp only [Option.map_some', Option.some_bind]
      rw [zipAux_alive]
    · have hge : s.snakes.length ≤ i := Nat.le_of_not_lt hi
      rw [hzip i, List.getElem?_eq_none_iff.mpr hge]
      simp
  · intro i
    by_cases hi : i < s.snakes.length
    · obtain ⟨sn', hres', hdeadeq⟩ := hbodyrel i hi
      have hs'body : (s'.snakes[i]?).map (·.body) = some sn'.body := by
        have hb := shadow_body_eq (collisionPass_shadow snakes1) i
        have hs'snakes : s'.snakes = collisionPass snakes1 := by rw [hs']
        rw [hs'snakes, hb, hres']
        rfl
      rw [hzip i, getElem?_of_lt hi, hres', hs'body]
      simp only [Option.map_some', Option.some_bind]
      rw [zipAux_body]
      rcases halive : (s.snakes.get ⟨i, hi⟩).alive with _ | _
      · exact Or.inl (by rw [hdeadeq halive])
      · exact Or.inr rfl
    · have hge : s.snakes.length ≤ i := Nat.le_of_not_lt hi
      have hgeS : s'.snakes.length ≤ i := by
        have hs'snakes : s'.snakes = collisionPass snakes1 := by rw [hs']
        rw [hs'snakes, collisionPass_length]
        omega
      rw [hzip i, List.getElem?_eq_none_iff.mpr hge,
        List.getElem?_eq_none_iff.mpr hgeS]
      simp
  · intro i sn hsn hdead
    have hi : i < s.snakes.length := (List.getElem?_eq_some.mp hsn).1
    have hi1 : i < snakes1.length := by omega
    rw [hzip i, hsn, getElem?_of_lt hi1]
    simp only [Option.map_some', Option.some_bind]
    rw [zipAux_dead _ _ hdead]

/-- Witness for C6 (amended) at `c6state`: foods and step counter of the old
state survive, and its (mutated) body equals the new state's body. -/
theorem stepMutatesPrev_witness :
    c6old.foods = c6state.foods ∧ c6old.steps = c6state.steps ∧
    step (fun _ => Direction.up) (fun _ => 0) c6state = some c6result ∧
    (c6old.snakes[0]?).map (·.body) = (c6result.snakes[0]?).map (·.body) := by
  have h := stepMutatesPrev (fun _ => Direction.up) (fun _ => 0) c6state c6result
    c6old (by decide)
  exact ⟨h.1, h.2.1, h.2.2.1, h.2.2.2.2.2.2.1 0⟩

end StepClaims

section FoodPlacementClaims

theorem processSnake_foods_length {dirReq : Direction} {done todo : List Snake}
    {rand : Nat → Nat} {k : Nat} {snake sn' : Snake} {foods f' : List Point}
    {k' : Nat}
    (h : processSnake dirReq done todo rand k snake foods = some (sn', f', k')) :
    f'.length = foods.length := by
  rcases processSnake_cases h with ⟨_, _, hf, _⟩ | ⟨_, _, _, hf, _⟩ |
      ⟨h0, t, fi, nf, _, _, hfi, _, _, hf, _⟩ | ⟨h0, t, _, _, _, _, hf, _⟩
  · rw [hf]
  · rw [hf]
  · rw [hf]
    have hlt := findFoodIdx_lt _ _ _ hfi
    rw [List.length_append, List.length_eraseIdx_of_lt hlt]
    simp only [List.length_cons, List.length_nil]
    omega
  · rw [hf]

theorem movePhase_foods_length {moves : Nat → Direction} {rand : Nat → Nat} :
    ∀ {todo : List Snake} {idx : Nat} {done : List Snake} {foods : List Point}
      {k : Nat} {res : List Snake} {f' : List Point} {k' : Nat},
      movePhase moves rand idx done todo foods k = some (res, f', k') →
      f'.length = foods.length := by
  intro todo
  induction todo with
  | nil =>
    intro idx done foods k res f' k' h
    rw [movePhase_nil] at h
    simp only [Option.some.injEq, Prod.mk.injEq] at h
    rw [← h.2.1]
  | cons snake todo ih =>
    intro idx done foods k res f' k' h
    rw [movePhase_cons] at h
    rcases hps : processSnake (moves idx) done todo rand k snake foods
      with _ | ⟨sn, f1, k1⟩
    · rw [hps] at h
      cases h
    · rw [hps] at h
      simp only at h
      rw [ih h, processSnake_foods_length hps]

theorem boardCells_nodup : boardCells.Nodup := by
  unfold boardCells
  refine List.Nodup.map ?_ (List.nodup_range _)
  intro i j hij
  simp only [Point.mk.injEq] at hij
  have h1 : i % BOARD_SIZE = j % BOARD_SIZE := by exact_mod_cast hij.1
  have h2 : i / BOARD_SIZE = j / BOARD_SIZE := by exact_mod_cast hij.2
  calc i = BOARD_SIZE * (i / BOARD_SIZE) + i % BOARD_SIZE :=
        (Nat.div_add_mod i BOARD_SIZE).symm
    _ = BOARD_SIZE * (j / BOARD_SIZE) + j % BOARD_SIZE := by rw [h1, h2]
    _ = j := Nat.div_add_mod j BOARD_SIZE

theorem availablePositions_mem (snakes : List Snake) (p : Point) :
    p ∈ availablePositions snakes ↔
      (p ∈ boardCells ∧ isOccupied snakes p = false) := by
  unfold availablePositions
  rw [List.mem_filter]
  constructor
  · rintro ⟨h1, h2⟩
    refine ⟨h1, ?_⟩
    simpa using h2
  · rintro ⟨h1, h2⟩
    refine ⟨h1, ?_⟩
    simp [h2]

theorem availablePositions_nodup (snakes : List Snake) :
    (availablePositions snakes).Nodup :=
  List.Nodup.filter _ boardCells_nodup

theorem getNextFoodPosition_onto (snakes : List Snake) (p : Point)
    (h : p ∈ availablePositions snakes) :
    ∃ r, getNextFoodPosition r snakes = some p := by
  obtain ⟨idx, hidx⟩ := List.mem_iff_getElem?.mp h
  refine ⟨idx, ?_⟩
  have hlt : idx < (availablePositions snakes).length :=
    (List.getElem?_eq_some.mp hidx).1
  show (availablePositions snakes)[idx % (availablePositions snakes).length]? = some p
  rw [Nat.mod_eq_of_lt hlt]
  exact hidx

theorem processSnake_food_source {dirReq : Direction} {done todo : List Snake}
    {rand : Nat → Nat} {k : Nat} {snake sn' : Snake} {foods f' : List Point}
    {k' : Nat}
    (h : processSnake dirReq done todo rand k snake foods = some (sn', f', k')) :
    ∀ f ∈ f', f ∈ foods ∨
      (f ∈ boardCells ∧ isOccupied (done ++ sn' :: todo) f = false) := by
  intro f hf
  rcases processSnake_cases h with ⟨_, _, hfe, _⟩ | ⟨_, _, _, hfe, _⟩ |
      ⟨h0, t, fi, nf, _, _, hfi, hnf, he, hfe, _⟩ | ⟨h0, t, _, _, _, _, hfe, _⟩
  · rw [hfe] at hf
    exact Or.inl hf
  · rw [hfe] at hf
    exact Or.inl hf
  · rw [hfe] at hf
    rcases List.mem_append.mp hf with hf1 | hf1
    · exact Or.inl ((List.eraseIdx_sublist foods fi).subset hf1)
    · have hfnf : f = nf := by simpa using hf1
      subst hfnf
      have hfree := getNextFoodPosition_some _ _ _ hnf
      rw [← he] at hfree
      exact Or.inr hfree
  · rw [hfe] at hf
    exact Or.inl hf

theorem movePhase_food_source {moves : Nat → Direction} {rand : Nat → Nat} :
    ∀ {todo : List Snake} {idx : Nat} {done : List Snake} {foods : List Point}
      {k : Nat} {res : List Snake} {f' : List Point} {k' : Nat},
      movePhase moves rand idx done todo foods k = some (res, f', k') →
      ∀ f ∈ f', f ∈ foods ∨ f ∈ boardCells := by
  intro todo
  induction todo with
  | nil =>
    intro idx done foods k res f' k' h f hf
    rw [movePhase_nil] at h
    simp only [Option.some.injEq, Prod.mk.injEq] at h
    rw [← h.2.1] at hf
    exact Or.inl hf
  | cons snake todo ih =>
    intro idx done foods k res f' k' h f hf
    rw [movePhase_cons] at h
    rcases hps : processSnake (moves idx) done todo rand k snake foods
      with _ | ⟨sn, f1, k1⟩
    · rw [hps] at h
      cases h
    · rw [hps] at h
      simp only at h
      rcases ih h f hf with h1 | h1
      · rcases processSnake_food_source hps f h1 with h2 | h2
        · exact Or.inl h2
        · exact Or.inr h2.1
      · exact Or.inr h1

/-- C3 counterexample: at `c3state` the new food is placed on `(2,3)`, a cell
occupied by snake 0's body in the pre-move state (its tail, vacated mid-step)
— so placement is not drawn from the cells unoccupied in the pre-move state,
and a fresh food can coincide with a pre-move occupied cell. -/
theorem foodPlacement_counterexample :
    ((step (fun i => if i = 0 then Direction.right else Direction.up)
        (fun _ => 60) c3state).map (·.foods)) = some [(⟨2, 3⟩ : Point)] ∧
    isOccupied c3state.snakes ⟨2, 3⟩ = true ∧
    (⟨2, 3⟩ : Point) ∉ c3state.foods := by
  refine ⟨by decide, by decide, by decide⟩

/-- C3 (amended): across a completed `step` the number of food points is
invariant (each consumed food is replaced by exactly one new one).  A placed
food is chosen among `availablePositions` of the occupancy snapshot at the
instant of placement — the in-place mutated bodies: snakes before the eater
post-move, the eater grown, snakes after pre-move — and that snapshot is
`done ++ sn' :: todo` in `processSnake`; the food never coincides with a cell
occupied at that instant, every cell free at that instant is reachable by
some random draw, and the candidate list has no duplicates (a uniform index
gives a uniform cell).  Every food after a tick is an old food or a board
cell; occupancy of the pre-move state is not what placement avoids. -/
theorem foodPlacement_characterization :
    (∀ (moves : Nat → Direction) (rand : Nat → Nat) (s s' : GameState),
      step moves rand s = some s' → s'.foods.length = s.foods.length) ∧
    (∀ (r : Nat) (snakes : List Snake) (p : Point),
      getNextFoodPosition r snakes = some p →
        p ∈ boardCells ∧ isOccupied snakes p = false) ∧
    (∀ (snakes : List Snake) (p : Point),
      p ∈ availablePositions snakes ↔
        (p ∈ boardCells ∧ isOccupied snakes p = false)) ∧
    (∀ (snakes : List Snake) (p : Point), p ∈ availablePositions snakes →
      ∃ r, getNextFoodPosition r snakes = some p) ∧
    (∀ snakes : List Snake, (availablePositions snakes).Nodup) ∧
    (∀ (dirReq : Direction) (done todo : List Snake) (rand : Nat → Nat) (k : Nat)
      (snake sn' : Snake) (foods f' : List Point) (k' : Nat),
      processSnake dirReq done todo rand k snake foods = some (sn', f', k') →
      ∀ f ∈ f', f ∈ foods ∨
        (f ∈ boardCells ∧ isOccupied (done ++ sn' :: todo) f = false)) ∧
    (∀ (moves : Nat → Direction) (rand : Nat → Nat) (s s' : GameState),
      step moves rand s = some s' → ∀ f ∈ s'.foods, f ∈ s.foods ∨ f ∈ boardCells) := by
  refine ⟨?_, getNextFoodPosition_some, availablePositions_mem,
    getNextFoodPosition_onto, availablePositions_nodup,
    fun dirReq done todo rand k snake sn' foods f' k' h =>
      processSnake_food_source h, ?_⟩
  · intro moves rand s s' hstep
    obtain ⟨snakes1, foods1, k1, hmp, hs'⟩ := step_elim hstep
    have hfoods : s'.foods = foods1 := by rw [hs']
    rw [hfoods]
    exact movePhase_foods_length hmp
  · intro moves rand s s' hstep f hf
    obtain ⟨snakes1, foods1, k1, hmp, hs'⟩ := step_elim hstep
    have hfoods : s'.foods = foods1 := by rw [hs']
    rw [hfoods] at hf
    exact movePhase_food_source hmp f hf

/-- Witness for C3 (amended) at concrete inputs: the food count survives the
`c3state` tick, a concrete placement returns a free board cell, and a free
cell is reachable by a concrete draw. -/
theorem foodPlacement_characterization_witness :
    ((step (fun i => if i = 0 then Direction.right else Direction.up)
        (fun _ => 60) c3state).map (·.foods.length)) = some c3state.foods.length ∧
    ((⟨0, 0⟩ : Point) ∈ boardCells ∧ isOccupied [] ⟨0, 0⟩ = false) ∧
    (∃ r, getNextFoodPosition r [] = some ⟨0, 0⟩) := by
  refine ⟨?_, foodPlacement_characterization.2.1 0 [] ⟨0, 0⟩ (by decide),
    foodPlacement_characterization.2.2.2.1 [] ⟨0, 0⟩ (by decide)⟩
  have h := foodPlacement_characterization.1
    (fun i => if i = 0 then Direction.right else Direction.up) (fun _ => 60)
    c3state { snakes := [{ body := [⟨3, 2⟩, ⟨2, 2⟩], direction := .right, alive := true },
                         { body := [⟨10, 9⟩, ⟨10, 10⟩], direction := .up, alive := true }],
              foods := [⟨2, 3⟩], steps := 1 } (by decide)
  simp only [] at h
  rw [show (step (fun i => if i = 0 then Direction.right else Direction.up)
      (fun _ => 60) c3state) =
    some { snakes := [{ body := [⟨3, 2⟩, ⟨2, 2⟩], direction := .right, alive := true },
                      { body := [⟨10, 9⟩, ⟨10, 10⟩], direction := .up, alive := true }],
           foods := [⟨2, 3⟩], steps := 1 } from by decide]
  simpa using h

/-- Witness for C7: with every board cell occupied the placement fails, a
placement on the empty board returns a free cell, and a tick in which a snake
eats on a full board aborts with the fatal error. -/
theorem foodPlacement_fatal_iff_boardFull_witness :
    getNextFoodPosition 5 [fullSnake] = none ∧
    ((⟨0, 0⟩ : Point) ∈ boardCells ∧ isOccupied [] ⟨0, 0⟩ = false) ∧
    step (fun _ => Direction.right) (fun _ => 0) fullState = none := by
  have hocc : ∀ p ∈ boardCells, isOccupied [fullSnake] p = true := by
    intro p hp
    unfold isOccupied
    apply List.any_eq_true.mpr
    refine ⟨fullSnake, by simp, ?_⟩
    apply List.any_eq_true.mpr
    refine ⟨p, ?_, by simp⟩
    show p ∈ fullSnake.body
    unfold fullSnake
    exact List.mem_cons_of_mem _ hp
  refine ⟨(foodPlacement_fatal_iff_boardFull.1 5 [fullSnake]).mpr hocc,
    foodPlacement_fatal_iff_boardFull.2.1 0 [] ⟨0, 0⟩ (by decide), ?_⟩
  apply foodPlacement_fatal_iff_boardFull.2.2
  show movePhase (fun _ => Direction.right) (fun _ => 0) 0 [] [fullSnake] [⟨1, 0⟩] 0 =
    none
  have hb1 : (movedSnake Direction.right fullSnake ⟨0, 0⟩ boardCells).body =
      ⟨0, 0⟩ :: boardCells := by
    have hcoll : isColliding
        (applyDir (acceptMove fullSnake.direction Direction.right) ⟨0, 0⟩)
        (⟨0, 0⟩ :: boardCells) = true := by decide
    have hv : (isValidPosition
        (applyDir (acceptMove fullSnake.direction Direction.right) ⟨0, 0⟩) &&
        ! isColliding
          (applyDir (acceptMove fullSnake.direction Direction.right) ⟨0, 0⟩)
          (⟨0, 0⟩ :: boardCells)) = false := by
      rw [hcoll]
      simp
    rw [movedSnake_invalid hv]
  have hfail : getNextFoodPosition 0
      ([] ++ movedSnake Direction.right fullSnake ⟨0, 0⟩ boardCells :: []) = none := by
    apply (getNextFoodPosition_none_iff _ _).mpr
    intro p hp
    unfold isOccupied
    apply List.any_eq_true.mpr
    refine ⟨movedSnake Direction.right fullSnake ⟨0, 0⟩ boardCells, by simp, ?_⟩
    apply List.any_eq_true.mpr
    refine ⟨p, ?_, by simp⟩
    show p ∈ (movedSnake Direction.right fullSnake ⟨0, 0⟩ boardCells).body
    rw [hb1]
    exact List.mem_cons_of_mem _ hp
  have hps : processSnake Direction.right [] [] (fun _ => 0) 0 fullSnake [⟨1, 0⟩] =
      none :=
    @processSnake_eat_fail Direction.right [] [] (fun _ => 0) 0 fullSnake
      [⟨1, 0⟩] ⟨0, 0⟩ boardCells 0 rfl rfl (by decide) hfail
  rw [movePhase_cons, hps]

end FoodPlacementClaims

end SnakeSim
